import Mathlib

/-!
Verification of the KripTik multi-sandbox build orchestrator.

Shallow embedding of `src/server/src/services/cloud/modal-orchestrator.py`
(class `KriptikOrchestrator`).  Pure helpers (`_partition_tasks`,
`_assign_tasks`, `_process_merges`) are translated directly.  The external
collaborators (`_create_sandbox`, `_execute_task`,
`_verify_intent_satisfaction`, webhook HTTP delivery) are stubs in the
source ("This would call the Modal sandbox creation API ...", "For now,
simulate task execution"); following the spec's section 6 they are modelled
as oracle parameters with the contract shapes
`create(sandboxId, ..., isMain) -> {id, status, tunnelUrl?}`,
`executeTask(sandbox, task, ...) -> {success, cost, verificationScore?, error?}`
and `verify -> {satisfied, score}`; each oracle call either returns a value
or raises (`Except`).  Wall-clock time (`duration`, timestamps) and the
textual traceback are not modelled; machine floats are modelled as `Rat`.
`_terminate_sandbox` (a `pass` stub; spec: `terminate(sandboxId) -> void`,
idempotent, never an error) is modelled as pure recording of the call.
-/

namespace Kriptik

abbrev Err := String

/-- One entry of `plan["phases"]` as read by `_partition_tasks`:
`phase.get("id")`, `phase.get("name")`, `phase.get("features", [])`,
`phase.get("dependencies", [])`.  `none` models an absent key. -/
structure PhaseSpec where
  id : Option String
  name : Option String
  features : List String
  dependencies : List String
deriving DecidableEq

/-- One entry of `plan["features"]` as read by `_partition_tasks`. -/
structure FeatureSpec where
  id : Option String
  name : Option String
  description : Option String
  files : List String
deriving DecidableEq

/-- The implementation plan: `plan.get("phases", [])` and
`plan.get("features", [])`. -/
structure Plan where
  phases : List PhaseSpec
  features : List FeatureSpec
deriving DecidableEq

/-- A partitioned task dict.  `ttype` is the `"type"` key
(`"phase"` or `"feature"`). -/
structure Task where
  id : String
  ttype : String
  name : String
  features : List String := []
  dependencies : List String := []
  description : String := ""
  files : List String := []
deriving DecidableEq

/-- The phase-task dict built at lines 292-298 of the source; `idx` is
`len(tasks)` at append time, i.e. the position of the phase. -/
def phaseTask (ph : PhaseSpec) (idx : Nat) : Task :=
  { id := ph.id.getD ("phase-" ++ toString idx)
    ttype := "phase"
    name := ph.name.getD "Unnamed Phase"
    features := ph.features
    dependencies := ph.dependencies }

/-- The feature-task dict built at lines 302-309 of the source. -/
def featureTask (f : FeatureSpec) (idx : Nat) : Task :=
  { id := f.id.getD ("feature-" ++ toString idx)
    ttype := "feature"
    name := f.name.getD "Unnamed Feature"
    description := f.description.getD ""
    files := f.files }

/-- `KriptikOrchestrator._partition_tasks` (lines 286-311): phases first,
each appended with fallback id `phase-<len(tasks)>`; if that produced no
tasks, features are used with fallback `feature-<len(tasks)>`. -/
def partitionTasks (plan : Plan) : List Task :=
  let tasks := plan.phases.foldl (fun ts ph => ts ++ [phaseTask ph ts.length]) []
  if tasks.isEmpty then
    plan.features.foldl (fun ts f => ts ++ [featureTask f ts.length]) []
  else
    tasks

/-- The loop body of `_assign_tasks` (lines 319-323):
`assignments = [[] for _ in sandboxes]` then
`assignments[i % n].append(task)` for each enumerated task. -/
def assignCore (tasks : List α) (n : Nat) : List (List α) :=
  tasks.enum.foldl
    (fun acc p => acc.set (p.1 % n) ((acc.getD (p.1 % n) []) ++ [p.2]))
    (List.replicate n [])

/-- `KriptikOrchestrator._assign_tasks` (lines 313-325).  In Python,
`i % len(sandboxes)` raises `ZeroDivisionError` on the first iteration when
the sandbox list is empty but tasks exist; with no tasks the loop body never
runs and `[[] for _ in sandboxes] = []` is returned. -/
def assignTasks (tasks : List α) (sandboxes : List β) : Except Err (List (List α)) :=
  if sandboxes.length = 0 ∧ tasks.isEmpty = false then
    .error "ZeroDivisionError"
  else
    .ok (assignCore tasks sandboxes.length)

/-- Declarative bucket description used in the statements about
`_assign_tasks`: the sub-sequence of `l` whose (enumeration starting at
`s`) index is congruent to `j` modulo `n`, in original order. -/
def bucketSpec (n s : Nat) (l : List α) (j : Nat) : List α :=
  ((List.enumFrom s l).filter (fun q => q.1 % n = j)).map Prod.snd

/-- Round-robin interleaving of a bucket list: repeatedly take the head of
every non-empty bucket, in bucket order.  For buckets produced by
`_assign_tasks` this is exactly "concatenating the sublists by increasing
original task index". -/
def joinRR (bs : List (List α)) : List α :=
  if h : bs.all List.isEmpty then []
  else (bs.filterMap List.head?) ++ joinRR (bs.map List.tail)
termination_by (bs.map List.length).sum
decreasing_by
  have hle : ∀ (cs : List (List α)),
      ((cs.map List.tail).map List.length).sum ≤ (cs.map List.length).sum := by
    intro cs
    induction cs with
    | nil => simp
    | cons c cs ih =>
      simp only [List.map_cons, List.sum_cons]
      exact Nat.add_le_add (by simp [List.length_tail]) ih
  simp only [List.all_eq_true, not_forall] at h
  obtain ⟨b, hb, hne⟩ := h
  have hbne : b ≠ [] := fun e => hne (by simp [e])
  induction bs with
  | nil => cases hb
  | cons c cs ih =>
    simp only [List.map_cons, List.sum_cons]
    rcases List.mem_cons.mp hb with rfl | hb2
    · have h1 : b.tail.length < b.length := by
        rw [List.length_tail]
        exact Nat.sub_lt (List.length_pos.mpr hbne) Nat.one_pos
      have h2 := hle cs
      omega
    · have h1 : c.tail.length ≤ c.length := by
        rw [List.length_tail]; omega
      have h2 := ih hb2
      omega

/-- A sandbox record `{id, status, tunnelUrl?, isMain}` as returned by
`_create_sandbox`. -/
structure Sandbox where
  id : String
  status : String
  tunnelUrl : Option String
  isMain : Bool
deriving DecidableEq

/-- A task-execution result, the contract shape of `_execute_task` /
`executeTask`: `{success, taskId, sandboxId, verificationScore?, cost?,
error?}`.  The run loop reads `result["success"]`, `result.get("cost", 0)`
and `result.get("error", ...)`; `_process_merges` reads `result["taskId"]`. -/
structure TaskResult where
  success : Bool
  taskId : String
  sandboxId : String
  verificationScore : Int := 0
  cost : Rat := 0
  error : Option String := none
deriving DecidableEq

/-- The Intent Verifier's output `{satisfied, score}`. -/
structure Verification where
  satisfied : Bool
  score : Int
deriving DecidableEq

/-- One merge record `{taskId, merged: true}`. -/
structure MergeRecord where
  taskId : String
  merged : Bool
deriving DecidableEq

/-- `KriptikOrchestrator._process_merges` (lines 363-378): one merge record
per successful result, failed results excluded. -/
def processMerges (results : List TaskResult) : List MergeRecord :=
  results.foldl (fun acc r => if r.success then acc ++ [⟨r.taskId, true⟩] else acc) []

/-- Modelled from the spec: the external collaborators of section 6
(Sandbox Lifecycle Client's `create` and `executeTask`, and the Intent
Verifier), whose real implementations are stubbed in the source file.
Each call returns its contract shape or raises. -/
structure Oracles where
  createSandbox : String → Bool → Except Err Sandbox
  executeTask : Sandbox → Task → Except Err TaskResult
  verifyIntentSatisfaction : Sandbox → Except Err Verification

/-- The literal stub body of `_create_sandbox` (lines 334-342): always
succeeds with status `running` and tunnel URL `https://<id>.modal.run`. -/
def createSandboxStub (sandboxId : String) (isMain : Bool) : Except Err Sandbox :=
  .ok { id := sandboxId
        status := "running"
        tunnelUrl := some ("https://" ++ sandboxId ++ ".modal.run")
        isMain := isMain }

/-- Orchestration configuration with the source defaults
(`config.get("maxParallelSandboxes", 5)`, `config.get("tournamentMode",
False)`, `config.get("budgetLimitUsd", 100)`).  `maxParallelSandboxes` is
an integer as supplied by JSON, so it may be zero or negative. -/
structure Config where
  maxParallelSandboxes : Int := 5
  tournamentMode : Bool := false
  budgetLimitUsd : Rat := 100
deriving DecidableEq

/-- One `_send_webhook(event, data)` call: the event name and, for the
per-task events, the task id from the payload. -/
structure Event where
  name : String
  taskId : Option String
deriving DecidableEq

/-- Observable run state: the instance attributes `completed_tasks` /
`failed_tasks`, the ordered log of `_send_webhook` calls, the outcome log
of actual HTTP delivery attempts (one Bool per attempt; absent when
`webhook_url` is falsy), and the ids of build sandboxes created /
terminated. -/
structure RunState where
  events : List Event := []
  delivered : List Bool := []
  completedTasks : List String := []
  failedTasks : List String := []
  createdBuild : List String := []
  terminated : List String := []
deriving DecidableEq

/-- `KriptikOrchestrator._send_webhook` (lines 266-284): with a falsy
(empty) `webhook_url` it returns before attempting delivery; otherwise one
HTTP POST is attempted and its outcome (`d k` for the k-th attempt of the
run) is swallowed by the `except` clause — failure only prints, never
raises, and nothing of the outcome flows back to the caller. -/
def sendWebhook (url : String) (d : Nat → Bool) (st : RunState) (name : String)
    (taskId : Option String := none) : RunState :=
  { st with
    events := st.events ++ [⟨name, taskId⟩]
    delivered := st.delivered ++ (if url = "" then [] else [d st.delivered.length]) }

/-- The two result-dict shapes of `run_orchestration`: the lines 237-248
success shape and the lines 254-262 failure shape (its `traceback` and the
`duration` timings are not modelled). -/
inductive BuildResult where
  | completed (buildId : String) (success : Bool) (mainSandboxUrl : Option String)
      (costUsd : Rat) (tasksCompleted tasksFailed : Nat) (verificationScore : Int)
  | failed (buildId : String) (error : Err) (tasksCompleted tasksFailed : Nat)
deriving DecidableEq

/-- Whether a result has the failure shape. -/
def isFailedResult : BuildResult → Bool
  | .failed _ _ _ _ => true
  | .completed _ _ _ _ _ _ _ => false

/-- Phase 3 loop (lines 158-170): create one build sandbox per index,
recording its id and emitting `sandboxCreated`; an exception from the
client propagates (no handler inside the `try` body). -/
def createBuildLoop (o : Oracles) (url : String) (d : Nat → Bool) (buildId : String) :
    List Nat → List Sandbox → RunState → RunState × Except Err (List Sandbox)
  | [], acc, st => (st, .ok acc)
  | i :: rest, acc, st =>
    match o.createSandbox (buildId ++ "-build-" ++ toString i) false with
    | .error e => (st, .error e)
    | .ok sb =>
      let st := { st with createdBuild := st.createdBuild ++ [sb.id] }
      let st := sendWebhook url d st "sandboxCreated"
      createBuildLoop o url d buildId rest (acc ++ [sb]) st

/-- Inner loop of phase 5 (lines 183-218), for one sandbox's assigned task
list: emit `taskStarted`; call `_execute_task` (unguarded — an exception
propagates); accumulate cost; record completed/failed id and emit the
terminal task event; append the result; then check
`total_cost >= budget_limit_usd` and, if exceeded, emit `budgetExceeded`
and `break` (which exits only this inner loop). -/
def execTaskLoop (o : Oracles) (url : String) (d : Nat → Bool) (budget : Rat)
    (sb : Sandbox) :
    List Task → Rat → List TaskResult → RunState →
      RunState × Except Err (Rat × List TaskResult)
  | [], cost, acc, st => (st, .ok (cost, acc))
  | t :: rest, cost, acc, st =>
    let st := sendWebhook url d st "taskStarted" (some t.id)
    match o.executeTask sb t with
    | .error e => (st, .error e)
    | .ok r =>
      let cost := cost + r.cost
      let st :=
        if r.success then
          sendWebhook url d
            { st with completedTasks := st.completedTasks ++ [t.id] }
            "taskCompleted" (some t.id)
        else
          sendWebhook url d
            { st with failedTasks := st.failedTasks ++ [t.id] }
            "taskFailed" (some t.id)
      let acc := acc ++ [r]
      if budget ≤ cost then
        (sendWebhook url d st "budgetExceeded", .ok (cost, acc))
      else
        execTaskLoop o url d budget sb rest cost acc st

/-- Outer loop of phase 5 (`for sandbox, assigned_tasks in zip(...)`): the
inner loop's `break` does not stop this loop — the next sandbox's tasks
are still dispatched. -/
def execPairs (o : Oracles) (url : String) (d : Nat → Bool) (budget : Rat) :
    List (Sandbox × List Task) → Rat → List TaskResult → RunState →
      RunState × Except Err (Rat × List TaskResult)
  | [], cost, acc, st => (st, .ok (cost, acc))
  | (sb, ts) :: rest, cost, acc, st =>
    match execTaskLoop o url d budget sb ts cost acc st with
    | (st, .error e) => (st, .error e)
    | (st, .ok (cost, acc)) => execPairs o url d budget rest cost acc st

/-- Lines 233-234: `for sandbox in build_sandboxes: _terminate_sandbox(...)`.
Modelled from the spec: `terminate` is void and never an error, so the
call is recorded. -/
def teardownLoop : List Sandbox → RunState → RunState
  | [], st => st
  | sb :: rest, st => teardownLoop rest { st with terminated := st.terminated ++ [sb.id] }

/-- The `try` body of `run_orchestration` (lines 126-251): started event,
partition, main sandbox, build sandboxes, assignment, budget-gated
execution, merges, verification, teardown of build sandboxes, success
result and `completed` event.  Any `.error` short-circuits to the
caller's handler. -/
def tryBody (o : Oracles) (url : String) (d : Nat → Bool) (buildId : String)
    (plan : Plan) (cfg : Config) (st : RunState) :
    RunState × Except Err BuildResult :=
  let st := sendWebhook url d st "started"
  let tasks := partitionTasks plan
  let st := sendWebhook url d st "tasksPartitioned"
  match o.createSandbox (buildId ++ "-main") true with
  | .error e => (st, .error e)
  | .ok mainSb =>
    let st := sendWebhook url d st "sandboxCreated"
    let count := (min cfg.maxParallelSandboxes (tasks.length : Int)).toNat
    match createBuildLoop o url d buildId (List.range count) [] st with
    | (st, .error e) => (st, .error e)
    | (st, .ok buildSandboxes) =>
      match assignTasks tasks buildSandboxes with
      | .error e => (st, .error e)
      | .ok assignments =>
        let st := sendWebhook url d st "tasksAssigned"
        match execPairs o url d cfg.budgetLimitUsd (buildSandboxes.zip assignments) 0 [] st with
        | (st, .error e) => (st, .error e)
        | (st, .ok (totalCost, allResults)) =>
          let _merges := processMerges allResults
          match o.verifyIntentSatisfaction mainSb with
          | .error e => (st, .error e)
          | .ok v =>
            let st := teardownLoop buildSandboxes st
            let result := BuildResult.completed buildId v.satisfied mainSb.tunnelUrl
              totalCost st.completedTasks.length st.failedTasks.length v.score
            let st := sendWebhook url d st "completed"
            (st, .ok result)

/-- `KriptikOrchestrator.run_orchestration` (lines 90-264): the `try` body,
with the outermost `except Exception` converting any raised error into the
failure-shaped result and emitting the `failed` event before returning. -/
def runOrchestration (o : Oracles) (url : String) (d : Nat → Bool) (buildId : String)
    (plan : Plan) (cfg : Config) : RunState × BuildResult :=
  match tryBody o url d buildId plan cfg {} with
  | (st, .ok r) => (st, r)
  | (st, .error e) =>
    let r := BuildResult.failed buildId e st.completedTasks.length st.failedTasks.length
    let st := sendWebhook url d st "failed"
    (st, r)

/-- Number of emitted events with the given name. -/
def countEvt (st : RunState) (name : String) : Nat :=
  (st.events.filter (fun e => e.name = name)).length

/-- Delivery-outcome oracle: every webhook delivery attempt fails. -/
def dF : Nat → Bool := fun _ => false

/-- A nameless, idless phase entry. -/
def ph0 : PhaseSpec := { id := none, name := none, features := [], dependencies := [] }

/-- A plan with a single anonymous phase. -/
def plan1 : Plan := { phases := [ph0], features := [] }

/-- A plan with two anonymous phases. -/
def plan2 : Plan := { phases := [ph0, ph0], features := [] }

/-- A plan with three anonymous phases (spec end-to-end scenario B). -/
def plan3 : Plan := { phases := [ph0, ph0, ph0], features := [] }

/-- Modelled from the spec: an execution substrate in which every task
succeeds at cost 1 (the spec's end-to-end scenarios A and B), together with
the stub creator and an always-satisfied verifier. -/
def oSucc1 : Oracles :=
  { createSandbox := createSandboxStub
    executeTask := fun sb t =>
      .ok { success := true, taskId := t.id, sandboxId := sb.id
            verificationScore := 95, cost := 1 }
    verifyIntentSatisfaction := fun _ => .ok { satisfied := true, score := 95 } }

/-- Modelled from the spec: a lifecycle client whose execute-task operation
raises on every call. -/
def oExecRaise (e : Err) : Oracles :=
  { createSandbox := createSandboxStub
    executeTask := fun _ _ => .error e
    verifyIntentSatisfaction := fun _ => .ok { satisfied := true, score := 95 } }

/-- Modelled from the spec: a lifecycle client whose create operation
raises on every call (spec end-to-end scenario C). -/
def oCreateRaise (e : Err) : Oracles :=
  { createSandbox := fun _ _ => .error e
    executeTask := fun sb t =>
      .ok { success := true, taskId := t.id, sandboxId := sb.id
            verificationScore := 95, cost := 1 }
    verifyIntentSatisfaction := fun _ => .ok { satisfied := true, score := 95 } }

/-- Modelled from the spec: every task succeeds at cost 1 but the Intent
Verifier reports `satisfied:false` (spec end-to-end scenario D). -/
def oVerFalse : Oracles :=
  { createSandbox := createSandboxStub
    executeTask := fun sb t =>
      .ok { success := true, taskId := t.id, sandboxId := sb.id
            verificationScore := 95, cost := 1 }
    verifyIntentSatisfaction := fun _ => .ok { satisfied := false, score := 42 } }

/-- Budget configuration of spec scenario B: default pool size, ceiling 2. -/
def cfgB : Config := { budgetLimitUsd := 2 }

/-- Configuration with an explicit `maxParallelSandboxes: 0`. -/
def cfg0 : Config := { maxParallelSandboxes := 0 }

/-- A phase entry with an explicit id and name. -/
def phA : PhaseSpec :=
  { id := some "auth", name := some "Auth", features := ["login"], dependencies := [] }

/-- A feature entry without an id. -/
def featA : FeatureSpec :=
  { id := none, name := some "Search", description := some "full-text", files := ["s.ts"] }

/-- A plan with both phases and features (phases must win). -/
def pBoth : Plan := { phases := [phA, ph0], features := [featA] }

/-- A plan with features only. -/
def pFeat : Plan := { phases := [], features := [featA, featA] }

/-- Projection of the run state onto everything the orchestration control
flow and the final result can depend on — i.e. all of it except the
delivery-outcome log. -/
def coreView (st : RunState) :
    List Event × List String × List String × List String × List String :=
  (st.events, st.completedTasks, st.failedTasks, st.createdBuild, st.terminated)

/-- The build sandbox record the stub creator returns for index `i`. -/
def buildSandbox (buildId : String) (i : Nat) : Sandbox :=
  { id := buildId ++ "-build-" ++ toString i
    status := "running"
    tunnelUrl := some ("https://" ++ (buildId ++ "-build-" ++ toString i) ++ ".modal.run")
    isMain := false }

theorem foldl_snoc_index (g : σ → Nat → τ) (l : List σ) :
    ∀ (acc : List τ),
      l.foldl (fun ts x => ts ++ [g x ts.length]) acc
        = acc ++ (List.enumFrom acc.length l).map (fun q => g q.2 q.1) := by
  induction l with
  | nil => intro acc; simp
  | cons x xs ih =>
    intro acc
    simp only [List.foldl_cons, List.enumFrom, List.map_cons]
    rw [ih]
    simp [List.append_assoc]

/-- C5.  Partitioner correctness: with at least one phase, partitioning
yields exactly one `phase`-type task per phase in plan order, with the
explicit id or the `phase-<index>` fallback, and features are ignored;
with zero phases every feature yields a `feature`-type task under the
analogous fallback (so zero phases and zero features yield zero tasks);
the task count always matches the source list, so no task is dropped. -/
theorem partition_correct (p : Plan) :
    ((p.phases ≠ [] → partitionTasks p = p.phases.enum.map fun q => phaseTask q.2 q.1) ∧
     (p.phases = [] → partitionTasks p = p.features.enum.map fun q => featureTask q.2 q.1)) ∧
    (partitionTasks p).length
      = (if p.phases.isEmpty then p.features.length else p.phases.length) := by
  have hph := foldl_snoc_index phaseTask p.phases []
  have hft := foldl_snoc_index featureTask p.features []
  simp only [List.length_nil, List.nil_append] at hph hft
  have hmain :
      (p.phases ≠ [] → partitionTasks p = p.phases.enum.map fun q => phaseTask q.2 q.1) ∧
      (p.phases = [] → partitionTasks p = p.features.enum.map fun q => featureTask q.2 q.1) := by
    constructor
    · intro hne
      rw [partitionTasks, hph]
      have : ((List.enumFrom 0 p.phases).map fun q => phaseTask q.2 q.1).isEmpty = false := by
        cases hp : p.phases with
        | nil => exact absurd hp hne
        | cons a l => simp [hp, List.enumFrom, List.isEmpty]
      simp [this, List.enum]
    · intro he
      rw [partitionTasks, hph, hft]
      simp [he, List.enum]
  refine ⟨hmain, ?_⟩
  cases hp : p.phases with
  | nil =>
    rw [hmain.2 hp]
    simp [List.enum, List.enumFrom_length]
  | cons a l =>
    rw [hmain.1 (by simp [hp])]
    simp [List.enum, List.enumFrom_length, hp]

/-- Witness for C5 at two concrete plans: one with both phases and
features (the two phases become the only tasks) and one with features
only. -/
theorem partition_correct_witness :
    (pBoth.phases ≠ [] ∧
      partitionTasks pBoth = pBoth.phases.enum.map fun q => phaseTask q.2 q.1) ∧
    (pFeat.phases = [] ∧
      partitionTasks pFeat = pFeat.features.enum.map fun q => featureTask q.2 q.1) :=
  ⟨⟨by decide, (partition_correct pBoth).1.1 (by decide)⟩,
   ⟨rfl, (partition_correct pFeat).1.2 rfl⟩⟩

theorem assignFold_getElem (n : Nat) (hn : 0 < n) (j : Nat) :
    ∀ (entries : List (Nat × α)) (acc : List (List α)), acc.length = n →
      (entries.foldl
          (fun acc p => acc.set (p.1 % n) ((acc.getD (p.1 % n) []) ++ [p.2])) acc)[j]?
        = (acc[j]?).map
            (fun a => a ++ (entries.filter (fun q => q.1 % n = j)).map Prod.snd) := by
  intro entries
  induction entries with
  | nil =>
    intro acc hacc
    simp
  | cons p rest ih =>
    intro acc hacc
    obtain ⟨i, x⟩ := p
    simp only [List.foldl_cons, List.filter_cons]
    have hlen : (acc.set (i % n) ((acc.getD (i % n) []) ++ [x])).length = n := by
      simp [hacc]
    rw [ih _ hlen]
    by_cases hij : i % n = j
    · have hjn : j < acc.length := hacc ▸ (hij ▸ Nat.mod_lt _ hn)
      rw [hij]
      rw [List.getElem?_set_self (by simpa [hacc] using hjn)]
      rw [List.getElem?_eq_getElem hjn]
      simp [List.getD_eq_getElem?_getD, List.getElem?_eq_getElem hjn, hij]
    · rw [List.getElem?_set_ne hij]
      simp [hij]

theorem assignCore_eq_buckets (tasks : List α) (n : Nat) (hn : 0 < n) :
    assignCore tasks n = (List.range n).map (bucketSpec n 0 tasks) := by
  apply List.ext_getElem?
  intro j
  rw [assignCore, assignFold_getElem n hn j tasks.enum (List.replicate n []) (by simp)]
  by_cases hj : j < n
  · rw [List.getElem?_replicate_of_lt hj]
    rw [List.getElem?_map, List.getElem?_range hj]
    simp [bucketSpec, List.enum]
  · rw [List.getElem?_eq_none (by simpa using Nat.le_of_not_lt hj)]
    rw [List.getElem?_eq_none (by simpa using Nat.le_of_not_lt hj)]
    rfl

theorem bucketSpec_cons (n s : Nat) (x : α) (l : List α) (j : Nat) :
    bucketSpec n s (x :: l) j
      = (if s % n = j then [x] else []) ++ bucketSpec n (s + 1) l j := by
  by_cases h : s % n = j <;> simp [bucketSpec, List.enumFrom, List.filter_cons, h]

theorem bucketSpec_shift (n : Nat) (j : Nat) (l : List α) :
    ∀ s, bucketSpec n (s + n) l j = bucketSpec n s l j := by
  induction l with
  | nil => intro s; rfl
  | cons x xs ih =>
    intro s
    rw [bucketSpec_cons, bucketSpec_cons, Nat.add_mod_right]
    have h1 : s + n + 1 = (s + 1) + n := by omega
    rw [h1, ih (s + 1)]

theorem bucketSpec_append (n : Nat) (j : Nat) (a b : List α) :
    ∀ s, bucketSpec n s (a ++ b) j = bucketSpec n s a j ++ bucketSpec n (s + a.length) b j := by
  induction a with
  | nil => intro s; simp [bucketSpec]
  | cons x xs ih =>
    intro s
    simp only [List.cons_append, bucketSpec_cons, List.length_cons]
    rw [ih (s + 1)]
    have h1 : s + 1 + xs.length = s + (xs.length + 1) := by omega
    rw [h1, List.append_assoc]

theorem bucketSpec_small (n : Nat) (j : Nat) (hj : j < n) :
    ∀ (a : List α) (s : Nat), s + a.length ≤ n →
      bucketSpec n s a j
        = if s ≤ j ∧ j < s + a.length then (a[j - s]?).toList else [] := by
  intro a
  induction a with
  | nil =>
    intro s hs
    have hcond : ¬(s ≤ j ∧ j < s + ([] : List α).length) := by simp
    rw [if_neg hcond]
    rfl
  | cons x xs ih =>
    intro s hs
    rw [bucketSpec_cons]
    have hsn : s < n := by simp at hs; omega
    have hsm : s % n = s := Nat.mod_eq_of_lt hsn
    rw [hsm]
    by_cases hsj : s = j
    · subst hsj
      rw [if_pos rfl]
      rw [ih (s + 1) (by simp at hs ⊢; omega)]
      rw [if_neg (by omega)]
      rw [if_pos (by simp)]
      simp
    · rw [if_neg hsj]
      rw [ih (s + 1) (by simp at hs ⊢; omega)]
      by_cases hle : s + 1 ≤ j ∧ j < s + 1 + xs.length
      · rw [if_pos hle, if_pos (by simp; omega)]
        have hidx : j - s = (j - (s + 1)) + 1 := by omega
        rw [hidx]
        simp
      · rw [if_neg hle, if_neg (by simp; omega)]
        rfl

theorem bucketSpec_head (n j : Nat) (hn : 0 < n) (hj : j < n) (l : List α) :
    (bucketSpec n 0 l j).head? = l[j]? := by
  by_cases hl : l.length ≤ n
  · rw [bucketSpec_small n j hj l 0 (by omega)]
    by_cases hcase : j < l.length
    · rw [if_pos ⟨Nat.zero_le j, by omega⟩]
      simp [List.getElem?_eq_getElem hcase]
    · rw [if_neg (by omega)]
      rw [List.getElem?_eq_none (by omega)]
      rfl
  · conv_lhs => rw [← List.take_append_drop n l]
    rw [bucketSpec_append]
    have htl : (l.take n).length = n := by
      rw [List.length_take]; omega
    rw [bucketSpec_small n j hj (l.take n) 0 (by omega)]
    rw [if_pos ⟨Nat.zero_le j, by omega⟩]
    simp only [Nat.sub_zero]
    rw [List.getElem?_take_of_lt hj]
    have hjl : j < l.length := by omega
    simp [List.getElem?_eq_getElem hjl]

theorem bucketSpec_tail (n j : Nat) (hn : 0 < n) (hj : j < n) (l : List α) :
    (bucketSpec n 0 l j).tail = bucketSpec n 0 (l.drop n) j := by
  by_cases hl : l.length ≤ n
  · rw [List.drop_eq_nil_of_le hl]
    rw [bucketSpec_small n j hj l 0 (by omega)]
    by_cases hcase : j < l.length
    · rw [if_pos ⟨Nat.zero_le j, by omega⟩]
      simp [List.getElem?_eq_getElem hcase, bucketSpec]
    · rw [if_neg (by omega)]
      rfl
  · conv_lhs => rw [← List.take_append_drop n l]
    rw [bucketSpec_append]
    have htl : (l.take n).length = n := by
      rw [List.length_take]; omega
    rw [bucketSpec_small n j hj (l.take n) 0 (by omega)]
    rw [if_pos ⟨Nat.zero_le j, by omega⟩]
    simp only [Nat.sub_zero]
    rw [List.getElem?_take_of_lt hj]
    have hjl : j < l.length := by omega
    rw [htl]
    have hshift : bucketSpec n (0 + n) (l.drop n) j = bucketSpec n 0 (l.drop n) j :=
      bucketSpec_shift n j (l.drop n) 0
    rw [hshift]
    simp [List.getElem?_eq_getElem hjl]

theorem range_filterMap_getElem (l : List α) :
    ∀ n, (List.range n).filterMap (fun j => l[j]?) = l.take n := by
  intro n
  induction n with
  | zero => simp
  | succ n ih =>
    rw [List.range_succ, List.filterMap_append, ih]
    rw [List.take_succ]
    congr 1

theorem buckets_filterMap_head (n : Nat) (hn : 0 < n) (l : List α) :
    ((List.range n).map (bucketSpec n 0 l)).filterMap List.head? = l.take n := by
  rw [List.filterMap_map]
  have hcong : ∀ j ∈ List.range n, (List.head? ∘ bucketSpec n 0 l) j = l[j]? :=
    fun j hj => bucketSpec_head n j hn (List.mem_range.mp hj) l
  rw [List.filterMap_congr hcong]
  exact range_filterMap_getElem l n

theorem buckets_map_tail (n : Nat) (hn : 0 < n) (l : List α) :
    ((List.range n).map (bucketSpec n 0 l)).map List.tail
      = (List.range n).map (bucketSpec n 0 (l.drop n)) := by
  rw [List.map_map]
  apply List.map_congr_left
  intro j hj
  exact bucketSpec_tail n j hn (List.mem_range.mp hj) l

theorem buckets_all_empty_false (n : Nat) (hn : 0 < n) (l : List α) (hl : l ≠ []) :
    ((List.range n).map (bucketSpec n 0 l)).all List.isEmpty = false := by
  rw [List.all_eq_false]
  refine ⟨bucketSpec n 0 l 0, List.mem_map.mpr ⟨0, List.mem_range.mpr hn, rfl⟩, ?_⟩
  intro hemp
  have hnil : bucketSpec n 0 l 0 = [] := by
    cases hb : bucketSpec n 0 l 0 with
    | nil => rfl
    | cons y ys => rw [hb] at hemp; simp [List.isEmpty] at hemp
  have h0 := bucketSpec_head n 0 hn hn l
  rw [hnil] at h0
  cases l with
  | nil => exact hl rfl
  | cons x xs => simp at h0

theorem joinRR_buckets_nil (n : Nat) :
    joinRR ((List.range n).map (bucketSpec n 0 ([] : List α))) = [] := by
  rw [joinRR]
  rw [dif_pos ?hall]
  case hall =>
    rw [List.all_eq_true]
    intro b hb
    obtain ⟨j, _, hj⟩ := List.mem_map.mp hb
    rw [← hj]
    rfl

theorem joinRR_buckets (n : Nat) (hn : 0 < n) :
    ∀ (N : Nat) (l : List α), l.length ≤ N →
      joinRR ((List.range n).map (bucketSpec n 0 l)) = l := by
  intro N
  induction N with
  | zero =>
    intro l hl
    have : l = [] := List.eq_nil_of_length_eq_zero (Nat.le_zero.mp hl)
    subst this
    exact joinRR_buckets_nil n
  | succ N ih =>
    intro l hl
    cases l with
    | nil => exact joinRR_buckets_nil n
    | cons x xs =>
      have hf := buckets_all_empty_false n hn (x :: xs) (by simp)
      rw [joinRR, dif_neg (by rw [hf]; simp)]
      rw [buckets_filterMap_head n hn, buckets_map_tail n hn]
      rw [ih ((x :: xs).drop n) (by simp at hl ⊢; omega)]
      exact List.take_append_drop n (x :: xs)

/-- C6.  Assignment round-trip: for a non-empty sandbox list of size `N`,
`_assign_tasks` succeeds and produces one sublist per sandbox; sublist `j`
is exactly the subsequence of tasks whose index is congruent to `j` mod
`N`, in original relative order (so task `i` is placed in sublist
`i mod N`); and interleaving the sublists back by increasing original
index (`joinRR`) reconstructs the task list exactly — nothing duplicated
or dropped. -/
theorem assign_round_trip (tasks : List α) (sandboxes : List β) (h : sandboxes ≠ []) :
    ∃ bs, assignTasks tasks sandboxes = .ok bs ∧
      bs.length = sandboxes.length ∧
      (∀ j, j < sandboxes.length →
        bs[j]? = some (bucketSpec sandboxes.length 0 tasks j)) ∧
      joinRR bs = tasks := by
  have hn : 0 < sandboxes.length := List.length_pos.mpr h
  refine ⟨(List.range sandboxes.length).map (bucketSpec sandboxes.length 0 tasks),
    ?_, ?_, ?_, ?_⟩
  · rw [assignTasks, if_neg (fun hc => by omega)]
    rw [assignCore_eq_buckets tasks _ hn]
  · simp
  · intro j hj
    rw [List.getElem?_map, List.getElem?_range hj]
    rfl
  · exact joinRR_buckets _ hn tasks.length tasks le_rfl

/-- Witness for C6: five tasks round-robined over two sandboxes. -/
theorem assign_round_trip_witness :
    ([0, 1] : List Nat) ≠ [] ∧
    ∃ bs, assignTasks [10, 20, 30, 40, 50] ([0, 1] : List Nat) = .ok bs ∧
      bs.length = ([0, 1] : List Nat).length ∧
      (∀ j, j < ([0, 1] : List Nat).length →
        bs[j]? = some (bucketSpec ([0, 1] : List Nat).length 0 [10, 20, 30, 40, 50] j)) ∧
      joinRR bs = [10, 20, 30, 40, 50] :=
  ⟨by decide, assign_round_trip [10, 20, 30, 40, 50] [0, 1] (by decide)⟩

theorem sendWebhook_countEvt (url : String) (d : Nat → Bool) (st : RunState)
    (nm : String) (tid : Option String) (nm' : String) :
    countEvt (sendWebhook url d st nm tid) nm'
      = countEvt st nm' + (if nm = nm' then 1 else 0) := by
  by_cases h : nm = nm' <;>
    simp [countEvt, sendWebhook, List.filter_append, List.filter_cons, h]

theorem sendWebhook_fields (url : String) (d : Nat → Bool) (st : RunState)
    (nm : String) (tid : Option String) :
    (sendWebhook url d st nm tid).completedTasks = st.completedTasks ∧
    (sendWebhook url d st nm tid).failedTasks = st.failedTasks ∧
    (sendWebhook url d st nm tid).createdBuild = st.createdBuild ∧
    (sendWebhook url d st nm tid).terminated = st.terminated ∧
    (sendWebhook url d st nm tid).events = st.events ++ [⟨nm, tid⟩] := by
  simp [sendWebhook]

theorem teardownLoop_eq (sbs : List Sandbox) :
    ∀ st, teardownLoop sbs st
      = { st with terminated := st.terminated ++ sbs.map Sandbox.id } := by
  induction sbs with
  | nil => intro st; simp [teardownLoop]
  | cons sb rest ih =>
    intro st
    rw [teardownLoop, ih]
    simp

theorem createBuildLoop_state (o : Oracles) (url : String) (d : Nat → Bool)
    (bid : String) :
    ∀ (idxs : List Nat) (acc : List Sandbox) (st : RunState),
      (createBuildLoop o url d bid idxs acc st).1.completedTasks = st.completedTasks ∧
      (createBuildLoop o url d bid idxs acc st).1.failedTasks = st.failedTasks ∧
      (createBuildLoop o url d bid idxs acc st).1.terminated = st.terminated ∧
      (∀ nm, nm ≠ "sandboxCreated" →
        countEvt (createBuildLoop o url d bid idxs acc st).1 nm = countEvt st nm) := by
  intro idxs
  induction idxs with
  | nil =>
    intro acc st
    exact ⟨rfl, rfl, rfl, fun _ _ => rfl⟩
  | cons i rest ih =>
    intro acc st
    rw [createBuildLoop]
    cases o.createSandbox (bid ++ "-build-" ++ toString i) false with
    | error e => exact ⟨rfl, rfl, rfl, fun _ _ => rfl⟩
    | ok sb =>
      simp only
      obtain ⟨h1, h2, h3, h4⟩ := ih (acc ++ [sb])
        (sendWebhook url d { st with createdBuild := st.createdBuild ++ [sb.id] }
          "sandboxCreated" none)
      refine ⟨by rw [h1]; simp [sendWebhook], by rw [h2]; simp [sendWebhook],
        by rw [h3]; simp [sendWebhook], ?_⟩
      intro nm hnm
      rw [h4 nm hnm, sendWebhook_countEvt, if_neg (fun hc => hnm hc.symm)]
      simp [countEvt]

theorem createBuildLoop_ok (o : Oracles) (url : String) (d : Nat → Bool)
    (bid : String) :
    ∀ (idxs : List Nat) (acc : List Sandbox) (st : RunState) (sbs : List Sandbox),
      (createBuildLoop o url d bid idxs acc st).2 = .ok sbs →
      ∃ newSbs, sbs = acc ++ newSbs ∧
        (createBuildLoop o url d bid idxs acc st).1.createdBuild
          = st.createdBuild ++ newSbs.map Sandbox.id := by
  intro idxs
  induction idxs with
  | nil =>
    intro acc st sbs h
    simp [createBuildLoop] at h
    exact ⟨[], by rw [← h]; simp, by simp [createBuildLoop]⟩
  | cons i rest ih =>
    intro acc st sbs h
    rw [createBuildLoop] at h ⊢
    cases hc : o.createSandbox (bid ++ "-build-" ++ toString i) false with
    | error e => rw [hc] at h; cases h
    | ok sb =>
      rw [hc] at h
      simp only at h ⊢
      obtain ⟨newSbs, hsplit, hcreated⟩ := ih (acc ++ [sb])
        (sendWebhook url d { st with createdBuild := st.createdBuild ++ [sb.id] }
          "sandboxCreated" none) sbs h
      refine ⟨sb :: newSbs, by rw [hsplit]; simp, ?_⟩
      rw [hcreated]
      simp [sendWebhook]

theorem createBuildLoop_stub (o : Oracles) (url : String) (d : Nat → Bool)
    (bid : String) (h : o.createSandbox = createSandboxStub) :
    ∀ (idxs : List Nat) (acc : List Sandbox) (st : RunState),
      (createBuildLoop o url d bid idxs acc st).2
        = .ok (acc ++ idxs.map (buildSandbox bid)) ∧
      (createBuildLoop o url d bid idxs acc st).1.createdBuild
        = st.createdBuild ++ idxs.map (fun i => bid ++ "-build-" ++ toString i) := by
  intro idxs
  induction idxs with
  | nil => intro acc st; simp [createBuildLoop]
  | cons i rest ih =>
    intro acc st
    have key := ih (acc ++ [buildSandbox bid i])
      (sendWebhook url d
        { st with createdBuild := st.createdBuild ++ [(buildSandbox bid i).id] }
        "sandboxCreated" none)
    rw [createBuildLoop, h]
    simp only [createSandboxStub, buildSandbox] at key ⊢
    constructor
    · rw [key.1]
      simp [buildSandbox]
    · rw [key.2]
      simp [sendWebhook, buildSandbox]

theorem sendWebhook_countEvt_other (url : String) (d : Nat → Bool) (stA : RunState)
    (nmS : String) (tid : Option String)
    (hS : nmS = "taskStarted" ∨ nmS = "taskCompleted" ∨ nmS = "taskFailed" ∨
      nmS = "budgetExceeded") :
    ∀ nm, nm ≠ "taskStarted" → nm ≠ "taskCompleted" → nm ≠ "taskFailed" →
      nm ≠ "budgetExceeded" →
      countEvt (sendWebhook url d stA nmS tid) nm = countEvt stA nm := by
  intro nm h1 h2 h3 h4
  rw [sendWebhook_countEvt]
  have hne : ¬(nmS = nm) := by
    rcases hS with rfl | rfl | rfl | rfl
    · exact fun hc => h1 hc.symm
    · exact fun hc => h2 hc.symm
    · exact fun hc => h3 hc.symm
    · exact fun hc => h4 hc.symm
  rw [if_neg hne]
  simp

theorem execTaskLoop_state (o : Oracles) (url : String) (d : Nat → Bool)
    (budget : Rat) (sb : Sandbox) :
    ∀ (ts : List Task) (cost : Rat) (acc : List TaskResult) (st : RunState),
      (execTaskLoop o url d budget sb ts cost acc st).1.terminated = st.terminated ∧
      (execTaskLoop o url d budget sb ts cost acc st).1.createdBuild = st.createdBuild ∧
      (∀ nm, nm ≠ "taskStarted" → nm ≠ "taskCompleted" → nm ≠ "taskFailed" →
        nm ≠ "budgetExceeded" →
        countEvt (execTaskLoop o url d budget sb ts cost acc st).1 nm = countEvt st nm) := by
  intro ts
  induction ts with
  | nil => intro cost acc st; exact ⟨rfl, rfl, fun _ _ _ _ _ => rfl⟩
  | cons t rest ih =>
    intro cost acc st
    rw [execTaskLoop]
    cases hx : o.executeTask sb t with
    | error e =>
      refine ⟨by simp [sendWebhook], by simp [sendWebhook], ?_⟩
      intro nm h1 h2 h3 h4
      exact sendWebhook_countEvt_other url d st "taskStarted" (some t.id)
        (Or.inl rfl) nm h1 h2 h3 h4
    | ok r =>
      simp only
      have hmid :
          ∀ (st2 : RunState), st2.terminated = st.terminated →
            st2.createdBuild = st.createdBuild →
            (∀ nm, nm ≠ "taskStarted" → nm ≠ "taskCompleted" → nm ≠ "taskFailed" →
              nm ≠ "budgetExceeded" → countEvt st2 nm = countEvt st nm) →
            ((if budget ≤ cost + r.cost then
                (sendWebhook url d st2 "budgetExceeded", .ok (cost + r.cost, acc ++ [r]))
              else
                execTaskLoop o url d budget sb rest (cost + r.cost) (acc ++ [r]) st2) :
                RunState × Except Err (Rat × List TaskResult)).1.terminated
                = st.terminated ∧
            ((if budget ≤ cost + r.cost then
                (sendWebhook url d st2 "budgetExceeded", .ok (cost + r.cost, acc ++ [r]))
              else
                execTaskLoop o url d budget sb rest (cost + r.cost) (acc ++ [r]) st2) :
                RunState × Except Err (Rat × List TaskResult)).1.createdBuild
                = st.createdBuild ∧
            (∀ nm, nm ≠ "taskStarted" → nm ≠ "taskCompleted" → nm ≠ "taskFailed" →
              nm ≠ "budgetExceeded" →
              countEvt ((if budget ≤ cost + r.cost then
                  (sendWebhook url d st2 "budgetExceeded", .ok (cost + r.cost, acc ++ [r]))
                else
                  execTaskLoop o url d budget sb rest (cost + r.cost) (acc ++ [r]) st2) :
                  RunState × Except Err (Rat × List TaskResult)).1 nm = countEvt st nm) := by
        intro st2 hterm hcreated hcount
        by_cases hb : budget ≤ cost + r.cost
        · rw [if_pos hb]
          refine ⟨by simp [sendWebhook, hterm], by simp [sendWebhook, hcreated], ?_⟩
          intro nm h1 h2 h3 h4
          rw [sendWebhook_countEvt_other url d st2 "budgetExceeded" none (by simp)
            nm h1 h2 h3 h4]
          exact hcount nm h1 h2 h3 h4
        · rw [if_neg hb]
          obtain ⟨i1, i2, i3⟩ := ih (cost + r.cost) (acc ++ [r]) st2
          refine ⟨by rw [i1, hterm], by rw [i2, hcreated], ?_⟩
          intro nm h1 h2 h3 h4
          rw [i3 nm h1 h2 h3 h4]
          exact hcount nm h1 h2 h3 h4
      cases hrs : r.success
      · simp only [hrs, Bool.false_eq_true, if_false]
        apply hmid
        · simp [sendWebhook]
        · simp [sendWebhook]
        · intro nm h1 h2 h3 h4
          have e1 := sendWebhook_countEvt_other url d
            { sendWebhook url d st "taskStarted" (some t.id) with
              failedTasks :=
                (sendWebhook url d st "taskStarted" (some t.id)).failedTasks ++ [t.id] }
            "taskFailed" (some t.id) (by simp) nm h1 h2 h3 h4
          rw [e1]
          exact sendWebhook_countEvt_other url d st "taskStarted" (some t.id)
            (Or.inl rfl) nm h1 h2 h3 h4
      · simp only [hrs, if_true]
        apply hmid
        · simp [sendWebhook]
        · simp [sendWebhook]
        · intro nm h1 h2 h3 h4
          have e1 := sendWebhook_countEvt_other url d
            { sendWebhook url d st "taskStarted" (some t.id) with
              completedTasks :=
                (sendWebhook url d st "taskStarted" (some t.id)).completedTasks ++ [t.id] }
            "taskCompleted" (some t.id) (by simp) nm h1 h2 h3 h4
          rw [e1]
          exact sendWebhook_countEvt_other url d st "taskStarted" (some t.id)
            (Or.inl rfl) nm h1 h2 h3 h4

theorem execPairs_state (o : Oracles) (url : String) (d : Nat → Bool) (budget : Rat) :
    ∀ (pairs : List (Sandbox × List Task)) (cost : Rat) (acc : List TaskResult)
      (st : RunState),
      (execPairs o url d budget pairs cost acc st).1.terminated = st.terminated ∧
      (execPairs o url d budget pairs cost acc st).1.createdBuild = st.createdBuild ∧
      (∀ nm, nm ≠ "taskStarted" → nm ≠ "taskCompleted" → nm ≠ "taskFailed" →
        nm ≠ "budgetExceeded" →
        countEvt (execPairs o url d budget pairs cost acc st).1 nm = countEvt st nm) := by
  intro pairs
  induction pairs with
  | nil => intro cost acc st; exact ⟨rfl, rfl, fun _ _ _ _ _ => rfl⟩
  | cons pr rest ih =>
    intro cost acc st
    obtain ⟨sb, ts⟩ := pr
    rw [execPairs]
    obtain ⟨t1, t2, t3⟩ := execTaskLoop_state o url d budget sb ts cost acc st
    cases hx : execTaskLoop o url d budget sb ts cost acc st with
    | mk st' res =>
      rw [hx] at t1 t2 t3
      cases res with
      | error e => exact ⟨t1, t2, t3⟩
      | ok pr2 =>
        obtain ⟨cost2, acc2⟩ := pr2
        obtain ⟨p1, p2, p3⟩ := ih cost2 acc2 st'
        refine ⟨by rw [p1, t1], by rw [p2, t2], ?_⟩
        intro nm h1 h2 h3 h4
        rw [p3 nm h1 h2 h3 h4, t3 nm h1 h2 h3 h4]

theorem sendWebhook_core (u1 u2 : String) (d1 d2 : Nat → Bool) (s t : RunState)
    (h : coreView s = coreView t) (nm : String) (tid : Option String) :
    coreView (sendWebhook u1 d1 s nm tid) = coreView (sendWebhook u2 d2 t nm tid) := by
  simp only [coreView, sendWebhook, Prod.mk.injEq] at h ⊢
  obtain ⟨h1, h2, h3, h4, h5⟩ := h
  exact ⟨by rw [h1], h2, h3, h4, h5⟩

theorem withCreated_core (s t : RunState) (h : coreView s = coreView t) (x : String) :
    coreView { s with createdBuild := s.createdBuild ++ [x] }
      = coreView { t with createdBuild := t.createdBuild ++ [x] } := by
  simp only [coreView, Prod.mk.injEq] at h ⊢
  obtain ⟨h1, h2, h3, h4, h5⟩ := h
  exact ⟨h1, h2, h3, by rw [h4], h5⟩

theorem createBuildLoop_core (o : Oracles) (bid : String) (u1 u2 : String)
    (d1 d2 : Nat → Bool) :
    ∀ (idxs : List Nat) (acc : List Sandbox) (s t : RunState),
      coreView s = coreView t →
      coreView (createBuildLoop o u1 d1 bid idxs acc s).1
          = coreView (createBuildLoop o u2 d2 bid idxs acc t).1 ∧
      (createBuildLoop o u1 d1 bid idxs acc s).2
          = (createBuildLoop o u2 d2 bid idxs acc t).2 := by
  intro idxs
  induction idxs with
  | nil => intro acc s t h; exact ⟨h, rfl⟩
  | cons i rest ih =>
    intro acc s t h
    rw [createBuildLoop, createBuildLoop]
    cases o.createSandbox (bid ++ "-build-" ++ toString i) false with
    | error e => exact ⟨h, rfl⟩
    | ok sb =>
      simp only
      exact ih (acc ++ [sb]) _ _
        (sendWebhook_core u1 u2 d1 d2 _ _ (withCreated_core s t h sb.id)
          "sandboxCreated" none)

theorem withCompleted_core (s t : RunState) (h : coreView s = coreView t) (x : String) :
    coreView { s with completedTasks := s.completedTasks ++ [x] }
      = coreView { t with completedTasks := t.completedTasks ++ [x] } := by
  simp only [coreView, Prod.mk.injEq] at h ⊢
  obtain ⟨h1, h2, h3, h4, h5⟩ := h
  exact ⟨h1, by rw [h2], h3, h4, h5⟩

theorem withFailed_core (s t : RunState) (h : coreView s = coreView t) (x : String) :
    coreView { s with failedTasks := s.failedTasks ++ [x] }
      = coreView { t with failedTasks := t.failedTasks ++ [x] } := by
  simp only [coreView, Prod.mk.injEq] at h ⊢
  obtain ⟨h1, h2, h3, h4, h5⟩ := h
  exact ⟨h1, h2, by rw [h3], h4, h5⟩

theorem execTaskLoop_core (o : Oracles) (budget : Rat) (sb : Sandbox)
    (u1 u2 : String) (d1 d2 : Nat → Bool) :
    ∀ (ts : List Task) (cost : Rat) (acc : List TaskResult) (s t : RunState),
      coreView s = coreView t →
      coreView (execTaskLoop o u1 d1 budget sb ts cost acc s).1
          = coreView (execTaskLoop o u2 d2 budget sb ts cost acc t).1 ∧
      (execTaskLoop o u1 d1 budget sb ts cost acc s).2
          = (execTaskLoop o u2 d2 budget sb ts cost acc t).2 := by
  intro ts
  induction ts with
  | nil => intro cost acc s t h; exact ⟨h, rfl⟩
  | cons tk rest ih =>
    intro cost acc s t h
    rw [execTaskLoop, execTaskLoop]
    have h1 := sendWebhook_core u1 u2 d1 d2 s t h "taskStarted" (some tk.id)
    cases o.executeTask sb tk with
    | error e => exact ⟨h1, rfl⟩
    | ok r =>
      simp only
      have h2 :
          coreView (if r.success then
              sendWebhook u1 d1
                { sendWebhook u1 d1 s "taskStarted" (some tk.id) with
                  completedTasks :=
                    (sendWebhook u1 d1 s "taskStarted" (some tk.id)).completedTasks
                      ++ [tk.id] } "taskCompleted" (some tk.id)
            else
              sendWebhook u1 d1
                { sendWebhook u1 d1 s "taskStarted" (some tk.id) with
                  failedTasks :=
                    (sendWebhook u1 d1 s "taskStarted" (some tk.id)).failedTasks
                      ++ [tk.id] } "taskFailed" (some tk.id))
            = coreView (if r.success then
              sendWebhook u2 d2
                { sendWebhook u2 d2 t "taskStarted" (some tk.id) with
                  completedTasks :=
                    (sendWebhook u2 d2 t "taskStarted" (some tk.id)).completedTasks
                      ++ [tk.id] } "taskCompleted" (some tk.id)
            else
              sendWebhook u2 d2
                { sendWebhook u2 d2 t "taskStarted" (some tk.id) with
                  failedTasks :=
                    (sendWebhook u2 d2 t "taskStarted" (some tk.id)).failedTasks
                      ++ [tk.id] } "taskFailed" (some tk.id)) := by
        cases r.success
        · simp only [Bool.false_eq_true, if_false]
          exact sendWebhook_core u1 u2 d1 d2 _ _ (withFailed_core _ _ h1 tk.id)
            "taskFailed" (some tk.id)
        · simp only [if_true]
          exact sendWebhook_core u1 u2 d1 d2 _ _ (withCompleted_core _ _ h1 tk.id)
            "taskCompleted" (some tk.id)
      by_cases hb : budget ≤ cost + r.cost
      · rw [if_pos hb, if_pos hb]
        exact ⟨sendWebhook_core u1 u2 d1 d2 _ _ h2 "budgetExceeded" none, rfl⟩
      · rw [if_neg hb, if_neg hb]
        exact ih (cost + r.cost) (acc ++ [r]) _ _ h2

theorem execPairs_core (o : Oracles) (budget : Rat) (u1 u2 : String)
    (d1 d2 : Nat → Bool) :
    ∀ (pairs : List (Sandbox × List Task)) (cost : Rat) (acc : List TaskResult)
      (s t : RunState),
      coreView s = coreView t →
      coreView (execPairs o u1 d1 budget pairs cost acc s).1
          = coreView (execPairs o u2 d2 budget pairs cost acc t).1 ∧
      (execPairs o u1 d1 budget pairs cost acc s).2
          = (execPairs o u2 d2 budget pairs cost acc t).2 := by
  intro pairs
  induction pairs with
  | nil => intro cost acc s t h; exact ⟨h, rfl⟩
  | cons pr rest ih =>
    intro cost acc s t h
    obtain ⟨sb, ts⟩ := pr
    rw [execPairs, execPairs]
    obtain ⟨hc, hv⟩ := execTaskLoop_core o budget sb u1 u2 d1 d2 ts cost acc s t h
    cases hx1 : execTaskLoop o u1 d1 budget sb ts cost acc s with
    | mk sa ra =>
      cases hx2 : execTaskLoop o u2 d2 budget sb ts cost acc t with
      | mk sb2 rb =>
        rw [hx1, hx2] at hc hv
        simp only at hc hv
        subst hv
        cases ra with
        | error e => exact ⟨hc, rfl⟩
        | ok pr2 =>
          obtain ⟨cost2, acc2⟩ := pr2
          exact ih cost2 acc2 sa sb2 hc

theorem teardownLoop_core (sbs : List Sandbox) (s t : RunState)
    (h : coreView s = coreView t) :
    coreView (teardownLoop sbs s) = coreView (teardownLoop sbs t) := by
  rw [teardownLoop_eq, teardownLoop_eq]
  simp only [coreView, Prod.mk.injEq] at h ⊢
  obtain ⟨h1, h2, h3, h4, h5⟩ := h
  exact ⟨h1, h2, h3, h4, by rw [h5]⟩

theorem tryBody_core (o : Oracles) (u1 u2 : String) (d1 d2 : Nat → Bool)
    (bid : String) (plan : Plan) (cfg : Config) :
    ∀ (s t : RunState), coreView s = coreView t →
      coreView (tryBody o u1 d1 bid plan cfg s).1
          = coreView (tryBody o u2 d2 bid plan cfg t).1 ∧
      (tryBody o u1 d1 bid plan cfg s).2 = (tryBody o u2 d2 bid plan cfg t).2 := by
  intro s t h
  simp only [tryBody]
  have h1 := sendWebhook_core u1 u2 d1 d2 s t h "started" none
  have h2 := sendWebhook_core u1 u2 d1 d2 _ _ h1 "tasksPartitioned" none
  cases o.createSandbox (bid ++ "-main") true with
  | error e => exact ⟨h2, rfl⟩
  | ok mainSb =>
    simp only
    have h3 := sendWebhook_core u1 u2 d1 d2 _ _ h2 "sandboxCreated" none
    obtain ⟨hc, hv⟩ := createBuildLoop_core o bid u1 u2 d1 d2
      (List.range (min cfg.maxParallelSandboxes
        ((partitionTasks plan).length : Int)).toNat) [] _ _ h3
    cases hx1 : createBuildLoop o u1 d1 bid
        (List.range (min cfg.maxParallelSandboxes
          ((partitionTasks plan).length : Int)).toNat) []
        (sendWebhook u1 d1 (sendWebhook u1 d1 (sendWebhook u1 d1 s "started" none)
          "tasksPartitioned" none) "sandboxCreated" none) with
    | mk sa ra =>
      cases hx2 : createBuildLoop o u2 d2 bid
          (List.range (min cfg.maxParallelSandboxes
            ((partitionTasks plan).length : Int)).toNat) []
          (sendWebhook u2 d2 (sendWebhook u2 d2 (sendWebhook u2 d2 t "started" none)
            "tasksPartitioned" none) "sandboxCreated" none) with
      | mk sb2 rb =>
        rw [hx1, hx2] at hc hv
        simp only at hc hv
        subst hv
        cases ra with
        | error e => exact ⟨hc, rfl⟩
        | ok sbs =>
          simp only
          cases assignTasks (partitionTasks plan) sbs with
          | error e => exact ⟨hc, rfl⟩
          | ok assignments =>
            simp only
            have h4 := sendWebhook_core u1 u2 d1 d2 _ _ hc "tasksAssigned" none
            obtain ⟨ec, ev⟩ := execPairs_core o cfg.budgetLimitUsd u1 u2 d1 d2
              (sbs.zip assignments) 0 [] _ _ h4
            cases ex1 : execPairs o u1 d1 cfg.budgetLimitUsd (sbs.zip assignments) 0 []
                (sendWebhook u1 d1 sa "tasksAssigned" none) with
            | mk ea ra2 =>
              cases ex2 : execPairs o u2 d2 cfg.budgetLimitUsd (sbs.zip assignments) 0 []
                  (sendWebhook u2 d2 sb2 "tasksAssigned" none) with
              | mk eb rb2 =>
                rw [ex1, ex2] at ec ev
                simp only at ec ev
                subst ev
                cases ra2 with
                | error e => exact ⟨ec, rfl⟩
                | ok pr =>
                  obtain ⟨totalCost, allResults⟩ := pr
                  simp only
                  cases o.verifyIntentSatisfaction mainSb with
                  | error e => exact ⟨ec, rfl⟩
                  | ok v =>
                    simp only
                    have h5 := teardownLoop_core sbs _ _ ec
                    refine ⟨sendWebhook_core u1 u2 d1 d2 _ _ h5 "completed" none, ?_⟩
                    have hcomp : (teardownLoop sbs ea).completedTasks
                        = (teardownLoop sbs eb).completedTasks := by
                      simp only [coreView, Prod.mk.injEq] at h5
                      exact h5.2.1
                    have hfail : (teardownLoop sbs ea).failedTasks
                        = (teardownLoop sbs eb).failedTasks := by
                      simp only [coreView, Prod.mk.injEq] at h5
                      exact h5.2.2.1
                    rw [hcomp, hfail]

theorem runOrchestration_core (o : Oracles) (u1 u2 : String) (d1 d2 : Nat → Bool)
    (bid : String) (plan : Plan) (cfg : Config) :
    coreView (runOrchestration o u1 d1 bid plan cfg).1
        = coreView (runOrchestration o u2 d2 bid plan cfg).1 ∧
    (runOrchestration o u1 d1 bid plan cfg).2
        = (runOrchestration o u2 d2 bid plan cfg).2 := by
  obtain ⟨hc, hv⟩ := tryBody_core o u1 u2 d1 d2 bid plan cfg {} {} rfl
  rw [runOrchestration, runOrchestration]
  cases hx1 : tryBody o u1 d1 bid plan cfg {} with
  | mk sa ra =>
    cases hx2 : tryBody o u2 d2 bid plan cfg {} with
    | mk sb rb =>
      rw [hx1, hx2] at hc hv
      simp only at hc hv
      subst hv
      cases ra with
      | ok r => exact ⟨hc, rfl⟩
      | error e =>
        simp only
        refine ⟨sendWebhook_core u1 u2 d1 d2 _ _ hc "failed" none, ?_⟩
        have hcomp : sa.completedTasks = sb.completedTasks := by
          simp only [coreView, Prod.mk.injEq] at hc
          exact hc.2.1
        have hfail : sa.failedTasks = sb.failedTasks := by
          simp only [coreView, Prod.mk.injEq] at hc
          exact hc.2.2.1
        rw [hcomp, hfail]

theorem createBuildLoop_nodeliver (o : Oracles) (d : Nat → Bool) (bid : String) :
    ∀ (idxs : List Nat) (acc : List Sandbox) (st : RunState),
      (createBuildLoop o "" d bid idxs acc st).1.delivered = st.delivered := by
  intro idxs
  induction idxs with
  | nil => intro acc st; rfl
  | cons i rest ih =>
    intro acc st
    rw [createBuildLoop]
    cases o.createSandbox (bid ++ "-build-" ++ toString i) false with
    | error e => rfl
    | ok sb =>
      simp only
      rw [ih]
      simp [sendWebhook]

theorem execTaskLoop_nodeliver (o : Oracles) (d : Nat → Bool) (budget : Rat)
    (sb : Sandbox) :
    ∀ (ts : List Task) (cost : Rat) (acc : List TaskResult) (st : RunState),
      (execTaskLoop o "" d budget sb ts cost acc st).1.delivered = st.delivered := by
  intro ts
  induction ts with
  | nil => intro cost acc st; rfl
  | cons t rest ih =>
    intro cost acc st
    rw [execTaskLoop]
    cases o.executeTask sb t with
    | error e => simp [sendWebhook]
    | ok r =>
      simp only
      by_cases hb : budget ≤ cost + r.cost
      · rw [if_pos hb]
        cases r.success <;> simp [sendWebhook]
      · rw [if_neg hb]
        rw [ih]
        cases r.success <;> simp [sendWebhook]

theorem execPairs_nodeliver (o : Oracles) (d : Nat → Bool) (budget : Rat) :
    ∀ (pairs : List (Sandbox × List Task)) (cost : Rat) (acc : List TaskResult)
      (st : RunState),
      (execPairs o "" d budget pairs cost acc st).1.delivered = st.delivered := by
  intro pairs
  induction pairs with
  | nil => intro cost acc st; rfl
  | cons pr rest ih =>
    intro cost acc st
    obtain ⟨sb, ts⟩ := pr
    rw [execPairs]
    have ht := execTaskLoop_nodeliver o d budget sb ts cost acc st
    cases hx : execTaskLoop o "" d budget sb ts cost acc st with
    | mk sa ra =>
      rw [hx] at ht
      cases ra with
      | error e => exact ht
      | ok pr2 =>
        obtain ⟨cost2, acc2⟩ := pr2
        rw [ih cost2 acc2 sa, ht]

theorem tryBody_nodeliver (o : Oracles) (d : Nat → Bool) (bid : String)
    (plan : Plan) (cfg : Config) :
    ∀ (st : RunState), (tryBody o "" d bid plan cfg st).1.delivered = st.delivered := by
  intro st
  simp only [tryBody]
  cases o.createSandbox (bid ++ "-main") true with
  | error e => simp [sendWebhook]
  | ok mainSb =>
    simp only
    have hcb := createBuildLoop_nodeliver o d bid
      (List.range (min cfg.maxParallelSandboxes
        ((partitionTasks plan).length : Int)).toNat) []
      (sendWebhook "" d (sendWebhook "" d (sendWebhook "" d st "started" none)
        "tasksPartitioned" none) "sandboxCreated" none)
    cases hx : createBuildLoop o "" d bid
        (List.range (min cfg.maxParallelSandboxes
          ((partitionTasks plan).length : Int)).toNat) []
        (sendWebhook "" d (sendWebhook "" d (sendWebhook "" d st "started" none)
          "tasksPartitioned" none) "sandboxCreated" none) with
    | mk sa ra =>
      rw [hx] at hcb
      simp only [sendWebhook] at hcb
      cases ra with
      | error e => simpa using hcb
      | ok sbs =>
        simp only
        cases assignTasks (partitionTasks plan) sbs with
        | error e => simpa using hcb
        | ok assignments =>
          simp only
          have hep := execPairs_nodeliver o d cfg.budgetLimitUsd (sbs.zip assignments)
            0 [] (sendWebhook "" d sa "tasksAssigned" none)
          cases ex : execPairs o "" d cfg.budgetLimitUsd (sbs.zip assignments) 0 []
              (sendWebhook "" d sa "tasksAssigned" none) with
          | mk ea ra2 =>
            rw [ex] at hep
            simp only [sendWebhook] at hep
            have hea : ea.delivered = st.delivered := by
              rw [hep]
              simpa using hcb
            cases ra2 with
            | error e => exact hea
            | ok pr =>
              obtain ⟨totalCost, allResults⟩ := pr
              simp only
              cases o.verifyIntentSatisfaction mainSb with
              | error e => exact hea
              | ok v =>
                simp only [sendWebhook, teardownLoop_eq]
                simpa using hea

/-- C9.  Webhook noninterference: delivery failures are swallowed inside
`_send_webhook` (modelled by the delivery-outcome oracle `d` whose values
never reach the orchestration control flow), so two runs of the same build
that differ only in which webhook deliveries succeed produce the identical
`BuildResult` — and even the identical emitted event sequence. -/
theorem webhook_noninterference (o : Oracles) (url : String) (d1 d2 : Nat → Bool)
    (bid : String) (plan : Plan) (cfg : Config) :
    (runOrchestration o url d1 bid plan cfg).2
        = (runOrchestration o url d2 bid plan cfg).2 ∧
    (runOrchestration o url d1 bid plan cfg).1.events
        = (runOrchestration o url d2 bid plan cfg).1.events := by
  obtain ⟨hc, hv⟩ := runOrchestration_core o url url d1 d2 bid plan cfg
  refine ⟨hv, ?_⟩
  simp only [coreView, Prod.mk.injEq] at hc
  exact hc.1

/-- C10.  An empty (falsy) `webhookUrl` silently disables reporting: no
delivery is ever attempted for any event (the delivery-attempt log stays
empty, terminal events included), and the build proceeds identically,
returning the same `BuildResult` as with any webhook target and any
delivery outcomes. -/
theorem empty_webhook_url (o : Oracles) (url : String) (d1 d2 : Nat → Bool)
    (bid : String) (plan : Plan) (cfg : Config) :
    (runOrchestration o "" d1 bid plan cfg).1.delivered = [] ∧
    (runOrchestration o "" d1 bid plan cfg).2
        = (runOrchestration o url d2 bid plan cfg).2 := by
  constructor
  · rw [runOrchestration]
    have ht := tryBody_nodeliver o d1 bid plan cfg {}
    cases hx : tryBody o "" d1 bid plan cfg {} with
    | mk sa ra =>
      rw [hx] at ht
      cases ra with
      | ok r => exact ht
      | error e =>
        simp only [sendWebhook]
        simpa using ht
  · exact (runOrchestration_core o "" url d1 d2 bid plan cfg).2

theorem sendWebhook_countEvt_ne (url : String) (d : Nat → Bool) (st : RunState)
    (nm : String) (tid : Option String) (nm' : String) (h : ¬nm = nm') :
    countEvt (sendWebhook url d st nm tid) nm' = countEvt st nm' := by
  rw [sendWebhook_countEvt, if_neg h]
  simp

theorem teardownLoop_countEvt (sbs : List Sandbox) (st : RunState) (nm : String) :
    countEvt (teardownLoop sbs st) nm = countEvt st nm := by
  rw [teardownLoop_eq]
  rfl

theorem tryBody_failed_props (o : Oracles) (url : String) (d : Nat → Bool)
    (bid : String) (plan : Plan) (cfg : Config) (st : RunState) :
    countEvt (tryBody o url d bid plan cfg st).1 "failed" = countEvt st "failed" ∧
    (∀ r, (tryBody o url d bid plan cfg st).2 = .ok r → isFailedResult r = false) := by
  simp only [tryBody]
  cases o.createSandbox (bid ++ "-main") true with
  | error e =>
    constructor
    · rw [sendWebhook_countEvt_ne _ _ _ _ _ _ (by decide),
        sendWebhook_countEvt_ne _ _ _ _ _ _ (by decide)]
    · intro r h
      simp at h
  | ok mainSb =>
    simp only
    cases hx : createBuildLoop o url d bid
        (List.range (min cfg.maxParallelSandboxes
          ((partitionTasks plan).length : Int)).toNat) []
        (sendWebhook url d (sendWebhook url d (sendWebhook url d st "started" none)
          "tasksPartitioned" none) "sandboxCreated" none) with
    | mk sa ra =>
      have hcb := (createBuildLoop_state o url d bid
        (List.range (min cfg.maxParallelSandboxes
          ((partitionTasks plan).length : Int)).toNat) []
        (sendWebhook url d (sendWebhook url d (sendWebhook url d st "started" none)
          "tasksPartitioned" none) "sandboxCreated" none)).2.2.2 "failed" (by decide)
      rw [hx] at hcb
      have hsa : countEvt sa "failed" = countEvt st "failed" := by
        rw [hcb, sendWebhook_countEvt_ne _ _ _ _ _ _ (by decide),
          sendWebhook_countEvt_ne _ _ _ _ _ _ (by decide),
          sendWebhook_countEvt_ne _ _ _ _ _ _ (by decide)]
      cases ra with
      | error e =>
        refine ⟨hsa, ?_⟩
        intro r h
        simp at h
      | ok sbs =>
        simp only
        cases assignTasks (partitionTasks plan) sbs with
        | error e =>
          refine ⟨hsa, ?_⟩
          intro r h
          simp at h
        | ok assignments =>
          simp only
          cases ex : execPairs o url d cfg.budgetLimitUsd (sbs.zip assignments) 0 []
              (sendWebhook url d sa "tasksAssigned" none) with
          | mk ea ra2 =>
            have hep := (execPairs_state o url d cfg.budgetLimitUsd
              (sbs.zip assignments) 0 []
              (sendWebhook url d sa "tasksAssigned" none)).2.2 "failed"
              (by decide) (by decide) (by decide) (by decide)
            rw [ex] at hep
            have hea : countEvt ea "failed" = countEvt st "failed" := by
              rw [hep, sendWebhook_countEvt_ne _ _ _ _ _ _ (by decide), hsa]
            cases ra2 with
            | error e =>
              refine ⟨hea, ?_⟩
              intro r h
              simp at h
            | ok pr =>
              obtain ⟨totalCost, allResults⟩ := pr
              simp only
              cases o.verifyIntentSatisfaction mainSb with
              | error e =>
                refine ⟨hea, ?_⟩
                intro r h
                simp at h
              | ok v =>
                simp only
                constructor
                · rw [sendWebhook_countEvt_ne _ _ _ _ _ _ (by decide),
                    teardownLoop_countEvt, hea]
                · intro r h
                  simp only [Except.ok.injEq] at h
                  rw [← h]
                  rfl

/-- C8.  Outermost failure boundary: for every run, the `failed` event is
emitted exactly once when the run returns the failure-shaped result and
never otherwise (the single `except` at the outermost boundary converts
any raised error into that shape); in particular, when main-sandbox
creation raises, the result is the failure shape carrying that error with
zero completed and failed tasks, and no `taskStarted` event was ever
emitted. -/
theorem outer_failure_boundary (o : Oracles) (url : String) (d : Nat → Bool)
    (bid : String) (plan : Plan) (cfg : Config) :
    (countEvt (runOrchestration o url d bid plan cfg).1 "failed"
      = if isFailedResult (runOrchestration o url d bid plan cfg).2 then 1 else 0) ∧
    (∀ e, o.createSandbox (bid ++ "-main") true = .error e →
      (runOrchestration o url d bid plan cfg).2 = .failed bid e 0 0 ∧
      countEvt (runOrchestration o url d bid plan cfg).1 "taskStarted" = 0) := by
  constructor
  · rw [runOrchestration]
    obtain ⟨hcount, hok⟩ := tryBody_failed_props o url d bid plan cfg {}
    cases hx : tryBody o url d bid plan cfg {} with
    | mk sa ra =>
      rw [hx] at hcount hok
      cases ra with
      | ok r =>
        simp only
        rw [hcount, hok r rfl]
        simp [countEvt]
      | error e =>
        simp only [isFailedResult, if_pos]
        rw [sendWebhook_countEvt, hcount, if_pos rfl]
        simp [countEvt]
  · intro e he
    rw [runOrchestration]
    simp only [tryBody, he]
    constructor
    · simp [sendWebhook]
    · simp only [sendWebhook, countEvt]
      decide

/-- Witness for C8: a lifecycle client whose `create` raises on every call
(spec end-to-end scenario C). -/
theorem outer_failure_boundary_witness :
    (runOrchestration (oCreateRaise "no capacity") "u" dF "b" plan2 {}).2
        = .failed "b" "no capacity" 0 0 ∧
    countEvt (runOrchestration (oCreateRaise "no capacity") "u" dF "b" plan2 {}).1
        "taskStarted" = 0 :=
  (outer_failure_boundary (oCreateRaise "no capacity") "u" dF "b" plan2 {}).2
    "no capacity" rfl

theorem tryBody_ok_verifier (o : Oracles) (url : String) (d : Nat → Bool)
    (bid : String) (plan : Plan) (cfg : Config) (v : Verification)
    (hver : ∀ sb, o.verifyIntentSatisfaction sb = .ok v) (st : RunState) :
    ∀ b s u c tc tf vs,
      (tryBody o url d bid plan cfg st).2 = .ok (.completed b s u c tc tf vs) →
      s = v.satisfied ∧ vs = v.score := by
  intro b s u c tc tf vs h
  simp only [tryBody] at h
  cases hc1 : o.createSandbox (bid ++ "-main") true with
  | error e => rw [hc1] at h; simp at h
  | ok mainSb =>
    rw [hc1] at h
    simp only at h
    cases hc2 : createBuildLoop o url d bid
        (List.range (min cfg.maxParallelSandboxes
          ((partitionTasks plan).length : Int)).toNat) []
        (sendWebhook url d (sendWebhook url d (sendWebhook url d st "started" none)
          "tasksPartitioned" none) "sandboxCreated" none) with
    | mk sa ra =>
      rw [hc2] at h
      cases ra with
      | error e => simp at h
      | ok sbs =>
        simp only at h
        cases hc3 : assignTasks (partitionTasks plan) sbs with
        | error e => rw [hc3] at h; simp at h
        | ok assignments =>
          rw [hc3] at h
          simp only at h
          cases hc4 : execPairs o url d cfg.budgetLimitUsd (sbs.zip assignments) 0 []
              (sendWebhook url d sa "tasksAssigned" none) with
          | mk ea ra2 =>
            rw [hc4] at h
            cases ra2 with
            | error e => simp at h
            | ok pr =>
              obtain ⟨totalCost, allResults⟩ := pr
              simp only at h
              rw [hver mainSb] at h
              simp only [Except.ok.injEq, BuildResult.completed.injEq] at h
              exact ⟨h.2.1.symm, h.2.2.2.2.2.2.symm⟩

/-- C4.  Authoritative success criterion: whenever the run returns the
completed-shaped result (i.e. it reached verification), the `success`
field is exactly the Intent Verifier's `satisfied` flag (and the
`verificationScore` field its score) — task-completion counts never
override the verdict, so `satisfied:false` forces `success:false` even
with zero failed tasks. -/
theorem success_follows_verifier (o : Oracles) (url : String) (d : Nat → Bool)
    (bid : String) (plan : Plan) (cfg : Config) (v : Verification)
    (hver : ∀ sb, o.verifyIntentSatisfaction sb = .ok v) :
    ∀ b s u c tc tf vs,
      (runOrchestration o url d bid plan cfg).2 = .completed b s u c tc tf vs →
      s = v.satisfied ∧ vs = v.score := by
  intro b s u c tc tf vs h
  rw [runOrchestration] at h
  cases hx : tryBody o url d bid plan cfg {} with
  | mk sa ra =>
    rw [hx] at h
    cases ra with
    | error e => simp at h
    | ok r =>
      simp only at h
      subst h
      have hx2 : (tryBody o url d bid plan cfg {}).2
          = .ok (.completed b s u c tc tf vs) := by
        rw [hx]
      exact tryBody_ok_verifier o url d bid plan cfg v hver {} b s u c tc tf vs hx2

/-- Witness for C4 at the spec's end-to-end scenario D: every task
succeeds but the verifier reports `satisfied:false` with score 42 — the
returned result is completed-shaped with `success = false` and
`tasksFailed = 0`. -/
theorem success_follows_verifier_witness :
    ((runOrchestration oVerFalse "u" dF "b" plan2 {}).2
        = .completed "b" false (some "https://b-main.modal.run") 2 2 0 42) ∧
    (false = (Verification.mk false 42).satisfied ∧
      (42 : Int) = (Verification.mk false 42).score) := by
  have hrun : (runOrchestration oVerFalse "u" dF "b" plan2 {}).2
      = .completed "b" false (some "https://b-main.modal.run") 2 2 0 42 := by
    norm_num [runOrchestration, tryBody, createBuildLoop, execTaskLoop, execPairs,
      teardownLoop, sendWebhook, assignTasks, assignCore, partitionTasks, phaseTask,
      oVerFalse, plan2, dF, createSandboxStub, ph0, Config.budgetLimitUsd,
      Config.maxParallelSandboxes, List.enum, List.enumFrom, List.range,
      List.range.loop]
    decide
  exact ⟨hrun,
    success_follows_verifier oVerFalse "u" dF "b" plan2 {} (Verification.mk false 42)
      (fun _ => rfl) "b" false (some "https://b-main.modal.run") 2 2 0 42 hrun⟩

theorem tryBody_teardown (o : Oracles) (url : String) (d : Nat → Bool)
    (bid : String) (plan : Plan) (cfg : Config) (st : RunState)
    (hterm : st.terminated = []) (hcreated : st.createdBuild = []) :
    (∀ r, (tryBody o url d bid plan cfg st).2 = .ok r →
      (tryBody o url d bid plan cfg st).1.terminated
        = (tryBody o url d bid plan cfg st).1.createdBuild) ∧
    (∀ e, (tryBody o url d bid plan cfg st).2 = .error e →
      (tryBody o url d bid plan cfg st).1.terminated = []) := by
  simp only [tryBody]
  cases hc1 : o.createSandbox (bid ++ "-main") true with
  | error e =>
    refine ⟨fun r h => by simp at h, fun e2 h => ?_⟩
    simp [sendWebhook, hterm]
  | ok mainSb =>
    simp only
    cases hc2 : createBuildLoop o url d bid
        (List.range (min cfg.maxParallelSandboxes
          ((partitionTasks plan).length : Int)).toNat) []
        (sendWebhook url d (sendWebhook url d (sendWebhook url d st "started" none)
          "tasksPartitioned" none) "sandboxCreated" none) with
    | mk sa ra =>
      have hcbState := createBuildLoop_state o url d bid
        (List.range (min cfg.maxParallelSandboxes
          ((partitionTasks plan).length : Int)).toNat) []
        (sendWebhook url d (sendWebhook url d (sendWebhook url d st "started" none)
          "tasksPartitioned" none) "sandboxCreated" none)
      rw [hc2] at hcbState
      have hsaTerm : sa.terminated = [] := by
        rw [hcbState.2.2.1]
        simp [sendWebhook, hterm]
      cases ra with
      | error e => exact ⟨fun r h => by simp at h, fun e2 h => hsaTerm⟩
      | ok sbs =>
        simp only
        have hcbOk := createBuildLoop_ok o url d bid
          (List.range (min cfg.maxParallelSandboxes
            ((partitionTasks plan).length : Int)).toNat) []
          (sendWebhook url d (sendWebhook url d (sendWebhook url d st "started" none)
            "tasksPartitioned" none) "sandboxCreated" none) sbs (by rw [hc2])
        obtain ⟨newSbs, hsplit, hsaCreated⟩ := hcbOk
        rw [hc2] at hsaCreated
        simp only [List.nil_append] at hsplit
        have hsaCr : sa.createdBuild = sbs.map Sandbox.id := by
          rw [hsaCreated, hsplit]
          simp [sendWebhook, hcreated]
        cases hc3 : assignTasks (partitionTasks plan) sbs with
        | error e => exact ⟨fun r h => by simp at h, fun e2 h => hsaTerm⟩
        | ok assignments =>
          simp only
          cases hc4 : execPairs o url d cfg.budgetLimitUsd (sbs.zip assignments) 0 []
              (sendWebhook url d sa "tasksAssigned" none) with
          | mk ea ra2 =>
            have hepState := execPairs_state o url d cfg.budgetLimitUsd
              (sbs.zip assignments) 0 [] (sendWebhook url d sa "tasksAssigned" none)
            rw [hc4] at hepState
            have heaTerm : ea.terminated = [] := by
              rw [hepState.1]
              simp [sendWebhook, hsaTerm]
            have heaCr : ea.createdBuild = sbs.map Sandbox.id := by
              rw [hepState.2.1]
              simp [sendWebhook, hsaCr]
            cases ra2 with
            | error e => exact ⟨fun r h => by simp at h, fun e2 h => heaTerm⟩
            | ok pr =>
              obtain ⟨totalCost, allResults⟩ := pr
              simp only
              cases hc5 : o.verifyIntentSatisfaction mainSb with
              | error e => exact ⟨fun r h => by simp at h, fun e2 h => heaTerm⟩
              | ok v =>
                simp only
                refine ⟨fun r h => ?_, fun e2 h => by simp at h⟩
                simp [sendWebhook, teardownLoop_eq, heaTerm, heaCr]

/-- C3 counterexample: with a lifecycle client whose execute-task raises,
the run returns the failure-shaped result, two build sandboxes had been
created, and **none** of them was terminated — the teardown loop (lines
232-234) lies on the success path only; the `except` block performs no
teardown. -/
theorem teardown_counterexample :
    isFailedResult (runOrchestration (oExecRaise "boom") "u" dF "b" plan2 {}).2
        = true ∧
    (runOrchestration (oExecRaise "boom") "u" dF "b" plan2 {}).1.createdBuild
        = ["b-build-0", "b-build-1"] ∧
    (runOrchestration (oExecRaise "boom") "u" dF "b" plan2 {}).1.terminated = [] := by
  decide

/-- C3 as amended: every created build sandbox is terminated before the
run returns **on the success-shaped path**; on the exception path no build
sandbox is terminated at all. -/
theorem teardown_on_success_path_only (o : Oracles) (url : String) (d : Nat → Bool)
    (bid : String) (plan : Plan) (cfg : Config) :
    (isFailedResult (runOrchestration o url d bid plan cfg).2 = false →
      (runOrchestration o url d bid plan cfg).1.terminated
        = (runOrchestration o url d bid plan cfg).1.createdBuild) ∧
    (isFailedResult (runOrchestration o url d bid plan cfg).2 = true →
      (runOrchestration o url d bid plan cfg).1.terminated = []) := by
  obtain ⟨hok, herr⟩ := tryBody_teardown o url d bid plan cfg {} rfl rfl
  rw [runOrchestration]
  cases hx : tryBody o url d bid plan cfg {} with
  | mk sa ra =>
    rw [hx] at hok herr
    cases ra with
    | ok r =>
      exact ⟨fun _ => hok r rfl, fun hcontra => by
        simp only at hcontra
        rw [(tryBody_failed_props o url d bid plan cfg {}).2 r (by rw [hx])]
          at hcontra
        cases hcontra⟩
    | error e =>
      refine ⟨fun hcontra => by simp [isFailedResult] at hcontra, fun _ => ?_⟩
      simp only [sendWebhook]
      simpa using herr e rfl

/-- Witness for C3's amended claim: a fully successful two-task build —
the result is completed-shaped and both created build sandboxes were
terminated. -/
theorem teardown_on_success_path_only_witness :
    isFailedResult (runOrchestration oSucc1 "u" dF "b" plan2 {}).2 = false ∧
    (runOrchestration oSucc1 "u" dF "b" plan2 {}).1.terminated
        = (runOrchestration oSucc1 "u" dF "b" plan2 {}).1.createdBuild := by
  have hfalse : isFailedResult (runOrchestration oSucc1 "u" dF "b" plan2 {}).2
      = false := by
    norm_num [runOrchestration, tryBody, createBuildLoop, execTaskLoop, execPairs,
      teardownLoop, sendWebhook, assignTasks, assignCore, partitionTasks, phaseTask,
      oSucc1, plan2, dF, createSandboxStub, ph0, Config.budgetLimitUsd,
      Config.maxParallelSandboxes, List.enum, List.enumFrom, List.range,
      List.range.loop, isFailedResult]
  exact ⟨hfalse, (teardown_on_success_path_only oSucc1 "u" dF "b" plan2 {}).1 hfalse⟩

theorem tryBody_execRaise (bid e url : String) (d : Nat → Bool) (plan : Plan)
    (cfg : Config) (hplan : partitionTasks plan ≠ [])
    (hmp : 1 ≤ cfg.maxParallelSandboxes) :
    ∃ stX, tryBody (oExecRaise e) url d bid plan cfg {} = (stX, .error e) ∧
      stX.completedTasks = [] ∧ stX.failedTasks = [] ∧
      countEvt stX "taskStarted" = 1 ∧ countEvt stX "taskFailed" = 0 := by
  have hT : 0 < (partitionTasks plan).length := List.length_pos.mpr hplan
  have hcount : 0 < (min cfg.maxParallelSandboxes
      ((partitionTasks plan).length : Int)).toNat := by
    rcases le_total cfg.maxParallelSandboxes ((partitionTasks plan).length : Int)
      with hle | hle
    · rw [min_eq_left hle]; omega
    · rw [min_eq_right hle]; omega
  simp only [tryBody]
  have hmain : (oExecRaise e).createSandbox (bid ++ "-main") true
      = .ok { id := bid ++ "-main", status := "running",
              tunnelUrl := some ("https://" ++ (bid ++ "-main") ++ ".modal.run"),
              isMain := true } := rfl
  simp only [hmain]
  set tasks := partitionTasks plan with htasksDef
  set count := (min cfg.maxParallelSandboxes (tasks.length : Int)).toNat
    with hcountDef
  set st3 := sendWebhook url d (sendWebhook url d
    (sendWebhook url d {} "started" none) "tasksPartitioned" none)
    "sandboxCreated" none with hst3Def
  obtain ⟨hval, hcreated⟩ := createBuildLoop_stub (oExecRaise e) url d bid rfl
    (List.range count) [] st3
  cases hc2 : createBuildLoop (oExecRaise e) url d bid (List.range count) [] st3 with
  | mk sa ra =>
    rw [hc2] at hval
    have hra : ra = .ok ([] ++ (List.range count).map (buildSandbox bid)) := hval
    subst hra
    simp only [List.nil_append]
    have hsandLen : ((List.range count).map (buildSandbox bid)).length = count := by
      simp
    have hassign : assignTasks tasks ((List.range count).map (buildSandbox bid))
        = .ok (assignCore tasks count) := by
      rw [assignTasks, if_neg ?hcond]
      · rw [hsandLen]
      case hcond =>
        intro hcontra
        rw [hsandLen] at hcontra
        omega
    rw [hassign]
    simp only
    rw [assignCore_eq_buckets tasks count (by omega)] at hassign ⊢
    have hn : count = ((List.range count).map (buildSandbox bid)).length := by simp
    cases hsb : (List.range count).map (buildSandbox bid) with
    | nil =>
      rw [hsb] at hsandLen
      simp at hsandLen
      omega
    | cons s0 sR =>
      cases hag : (List.range count).map (bucketSpec count 0 tasks) with
      | nil =>
        have : ((List.range count).map (bucketSpec count 0 tasks)).length = count := by
          simp
        rw [hag] at this
        simp at this
        omega
      | cons a0 aR =>
        have ha0 : a0 = bucketSpec count 0 tasks 0 := by
          have h0 : ((List.range count).map (bucketSpec count 0 tasks))[0]?
              = some (bucketSpec count 0 tasks 0) := by
            rw [List.getElem?_map, List.getElem?_range hcount]
            rfl
          rw [hag] at h0
          simp at h0
          exact h0
        have hhead : a0.head? = tasks[0]? := by
          rw [ha0]
          exact bucketSpec_head count 0 (by omega) hcount tasks
        have ht0 : ∃ t0, tasks[0]? = some t0 := by
          rw [List.getElem?_eq_getElem hT]
          exact ⟨tasks[0], rfl⟩
        obtain ⟨t0, ht0⟩ := ht0
        cases ha0c : a0 with
        | nil =>
          rw [ha0c] at hhead
          rw [ht0] at hhead
          simp at hhead
        | cons t0x a0t =>
          simp only [List.zip_cons_cons]
          rw [execPairs, execTaskLoop]
          have hexec : (oExecRaise e).executeTask s0 t0x = .error e := rfl
          simp only [hexec]
          refine ⟨_, rfl, ?_, ?_, ?_, ?_⟩
          · have h1 := (createBuildLoop_state (oExecRaise e) url d bid
              (List.range count) [] st3).1
            rw [hc2] at h1
            simp only at h1
            simp [sendWebhook, h1, hst3Def]
          · have h2 := (createBuildLoop_state (oExecRaise e) url d bid
              (List.range count) [] st3).2.1
            rw [hc2] at h2
            simp only at h2
            simp [sendWebhook, h2, hst3Def]
          · have h4 := (createBuildLoop_state (oExecRaise e) url d bid
              (List.range count) [] st3).2.2.2 "taskStarted" (by decide)
            rw [hc2] at h4
            simp only at h4
            rw [sendWebhook_countEvt, if_pos rfl,
              sendWebhook_countEvt_ne _ _ _ _ _ _ (by decide), h4, hst3Def,
              sendWebhook_countEvt_ne _ _ _ _ _ _ (by decide),
              sendWebhook_countEvt_ne _ _ _ _ _ _ (by decide),
              sendWebhook_countEvt_ne _ _ _ _ _ _ (by decide)]
            simp [countEvt]
          · have h4 := (createBuildLoop_state (oExecRaise e) url d bid
              (List.range count) [] st3).2.2.2 "taskFailed" (by decide)
            rw [hc2] at h4
            simp only at h4
            rw [sendWebhook_countEvt_ne _ _ _ _ _ _ (by decide),
              sendWebhook_countEvt_ne _ _ _ _ _ _ (by decide), h4, hst3Def,
              sendWebhook_countEvt_ne _ _ _ _ _ _ (by decide),
              sendWebhook_countEvt_ne _ _ _ _ _ _ (by decide),
              sendWebhook_countEvt_ne _ _ _ _ _ _ (by decide)]
            simp [countEvt]

/-- C2 counterexample: the execution loop (lines 182-210) has **no**
handler around `_execute_task`.  With a lifecycle client that raises on
the first task of a two-task build, the exception escapes the loop to the
outermost boundary: the run returns the failure-shaped result, no
`TaskResult{success:false}` is recorded (zero `taskFailed` events, zero
entries in the failed tally) and the second task is never processed (one
single `taskStarted` event). -/
theorem exec_exception_counterexample :
    (runOrchestration (oExecRaise "boom") "u" dF "b" plan2 {}).2
        = .failed "b" "boom" 0 0 ∧
    countEvt (runOrchestration (oExecRaise "boom") "u" dF "b" plan2 {}).1
        "taskStarted" = 1 ∧
    countEvt (runOrchestration (oExecRaise "boom") "u" dF "b" plan2 {}).1
        "taskFailed" = 0 := by
  decide

/-- C2 as amended: an exception raised by the lifecycle client's
execute-task operation is **not** caught by the Execution Loop; it
propagates to the outermost orchestration boundary, so the raising task is
never converted into a failed `TaskResult` (no `taskFailed` event, failed
tally 0), the remaining tasks are never dispatched (exactly one
`taskStarted` event in the whole run), and the build returns the
failure-shaped result carrying that exception's message. -/
theorem exec_exception_propagates (bid e url : String) (d : Nat → Bool)
    (plan : Plan) (cfg : Config) (hplan : partitionTasks plan ≠ [])
    (hmp : 1 ≤ cfg.maxParallelSandboxes) :
    (runOrchestration (oExecRaise e) url d bid plan cfg).2 = .failed bid e 0 0 ∧
    countEvt (runOrchestration (oExecRaise e) url d bid plan cfg).1
        "taskStarted" = 1 ∧
    countEvt (runOrchestration (oExecRaise e) url d bid plan cfg).1
        "taskFailed" = 0 := by
  obtain ⟨stX, htb, hcomp, hfail, hstart, htf⟩ :=
    tryBody_execRaise bid e url d plan cfg hplan hmp
  rw [runOrchestration, htb]
  simp only
  refine ⟨by rw [hcomp, hfail]; rfl, ?_, ?_⟩
  · rw [sendWebhook_countEvt_ne _ _ _ _ _ _ (by decide), hstart]
  · rw [sendWebhook_countEvt_ne _ _ _ _ _ _ (by decide), htf]

/-- Witness for C2's amended claim at a concrete two-phase plan. -/
theorem exec_exception_propagates_witness :
    partitionTasks plan2 ≠ [] ∧ 1 ≤ ({} : Config).maxParallelSandboxes ∧
    ((runOrchestration (oExecRaise "dead") "w" dF "bb" plan2 {}).2
        = .failed "bb" "dead" 0 0 ∧
      countEvt (runOrchestration (oExecRaise "dead") "w" dF "bb" plan2 {}).1
          "taskStarted" = 1 ∧
      countEvt (runOrchestration (oExecRaise "dead") "w" dF "bb" plan2 {}).1
          "taskFailed" = 0) :=
  ⟨by decide, by decide,
    exec_exception_propagates "bb" "dead" "w" dF plan2 {} (by decide) (by decide)⟩

theorem tryBody_createdBuild_stub (o : Oracles) (url : String) (d : Nat → Bool)
    (bid : String) (plan : Plan) (cfg : Config)
    (hcr : o.createSandbox = createSandboxStub) (st : RunState)
    (hc0 : st.createdBuild = []) :
    (tryBody o url d bid plan cfg st).1.createdBuild
      = (List.range (min cfg.maxParallelSandboxes
          ((partitionTasks plan).length : Int)).toNat).map
          (fun i => bid ++ "-build-" ++ toString i) := by
  simp only [tryBody]
  have hmain : o.createSandbox (bid ++ "-main") true
      = .ok { id := bid ++ "-main", status := "running",
              tunnelUrl := some ("https://" ++ (bid ++ "-main") ++ ".modal.run"),
              isMain := true } := by
    rw [hcr]
    rfl
  simp only [hmain]
  set tasks := partitionTasks plan with htasksDef
  set count := (min cfg.maxParallelSandboxes (tasks.length : Int)).toNat
    with hcountDef
  set st3 := sendWebhook url d (sendWebhook url d
    (sendWebhook url d st "started" none) "tasksPartitioned" none)
    "sandboxCreated" none with hst3Def
  obtain ⟨hval, hcreated⟩ := createBuildLoop_stub o url d bid hcr
    (List.range count) [] st3
  cases hc2 : createBuildLoop o url d bid (List.range count) [] st3 with
  | mk sa ra =>
    rw [hc2] at hval hcreated
    have hra : ra = .ok ([] ++ (List.range count).map (buildSandbox bid)) := hval
    subst hra
    have hsaCr : sa.createdBuild
        = (List.range count).map (fun i => bid ++ "-build-" ++ toString i) := by
      have h0 : sa.createdBuild = st3.createdBuild
          ++ (List.range count).map (fun i => bid ++ "-build-" ++ toString i) :=
        hcreated
      rw [h0, hst3Def]
      simp [sendWebhook, hc0]
    simp only [List.nil_append]
    cases hc3 : assignTasks tasks ((List.range count).map (buildSandbox bid)) with
    | error e => exact hsaCr
    | ok assignments =>
      simp only
      cases hc4 : execPairs o url d cfg.budgetLimitUsd
          (((List.range count).map (buildSandbox bid)).zip assignments) 0 []
          (sendWebhook url d sa "tasksAssigned" none) with
      | mk ea ra2 =>
        have hep := (execPairs_state o url d cfg.budgetLimitUsd
          (((List.range count).map (buildSandbox bid)).zip assignments) 0 []
          (sendWebhook url d sa "tasksAssigned" none)).2.1
        rw [hc4] at hep
        have heaCr : ea.createdBuild
            = (List.range count).map (fun i => bid ++ "-build-" ++ toString i) := by
          rw [hep]
          simp [sendWebhook, hsaCr]
        cases ra2 with
        | error e => exact heaCr
        | ok pr =>
          obtain ⟨totalCost, allResults⟩ := pr
          simp only
          cases o.verifyIntentSatisfaction
              { id := bid ++ "-main", status := "running",
                tunnelUrl := some ("https://" ++ (bid ++ "-main") ++ ".modal.run"),
                isMain := true } with
          | error e => exact heaCr
          | ok v =>
            simp only
            rw [teardownLoop_eq]
            simp [sendWebhook, heaCr]

/-- C7 counterexample: with `maxParallelSandboxes: 0` and a one-task plan,
`min(maxParallelSandboxes, taskCount) = 0` build sandboxes are created even
though `taskCount = 1 > 0`, and the assignment step's `i % 0` raises
(`ZeroDivisionError`), so the run falls to the failure-shaped result. -/
theorem pool_size_counterexample :
    (partitionTasks plan1).length = 1 ∧
    (runOrchestration oSucc1 "u" dF "b" plan1 cfg0).1.createdBuild.length = 0 ∧
    (runOrchestration oSucc1 "u" dF "b" plan1 cfg0).2
        = .failed "b" "ZeroDivisionError" 0 0 := by
  decide

/-- C7 as amended: when sandbox creation succeeds (the stub client), the
number of build sandboxes created always equals
`min(maxParallelSandboxes, taskCount)`; **provided** the configured
`maxParallelSandboxes` is at least 1, that number is nonzero whenever
there is at least one task, so the assignment's modulo is well-defined. -/
theorem pool_size_amended (o : Oracles) (url : String) (d : Nat → Bool)
    (bid : String) (plan : Plan) (cfg : Config)
    (hcr : o.createSandbox = createSandboxStub) :
    (runOrchestration o url d bid plan cfg).1.createdBuild.length
        = (min cfg.maxParallelSandboxes ((partitionTasks plan).length : Int)).toNat ∧
    (1 ≤ cfg.maxParallelSandboxes → partitionTasks plan ≠ [] →
      0 < (runOrchestration o url d bid plan cfg).1.createdBuild.length) := by
  have hcb := tryBody_createdBuild_stub o url d bid plan cfg hcr {} rfl
  have hlen : (runOrchestration o url d bid plan cfg).1.createdBuild.length
      = (min cfg.maxParallelSandboxes ((partitionTasks plan).length : Int)).toNat := by
    rw [runOrchestration]
    cases hx : tryBody o url d bid plan cfg {} with
    | mk sa ra =>
      rw [hx] at hcb
      cases ra with
      | ok r =>
        simp only
        rw [hcb]
        simp
      | error e =>
        simp only [sendWebhook]
        rw [hcb]
        simp
  refine ⟨hlen, fun hmp hplan => ?_⟩
  rw [hlen]
  have hT : 0 < (partitionTasks plan).length := List.length_pos.mpr hplan
  rcases le_total cfg.maxParallelSandboxes ((partitionTasks plan).length : Int)
    with hle | hle
  · rw [min_eq_left hle]; omega
  · rw [min_eq_right hle]; omega

/-- Witness for C7's amended claim: default configuration (pool cap 5) on
a two-task plan — two build sandboxes, a nonzero pool. -/
theorem pool_size_amended_witness :
    (runOrchestration oSucc1 "u" dF "b" plan2 {}).1.createdBuild.length
        = (min ({} : Config).maxParallelSandboxes
            ((partitionTasks plan2).length : Int)).toNat ∧
    (1 ≤ ({} : Config).maxParallelSandboxes ∧ partitionTasks plan2 ≠ []) ∧
    0 < (runOrchestration oSucc1 "u" dF "b" plan2 {}).1.createdBuild.length :=
  ⟨(pool_size_amended oSucc1 "u" dF "b" plan2 {} rfl).1,
   ⟨by decide, by decide⟩,
   (pool_size_amended oSucc1 "u" dF "b" plan2 {} rfl).2 (by decide) (by decide)⟩

/-- C1, evaluating the code at the spec's end-to-end scenario B (three
one-cost tasks, budget ceiling 2, default pool cap 5, so one task per
sandbox): because the `break` at line 218 exits only the **inner**
per-sandbox loop, the outer loop moves on to the next sandbox — the third
task is still started (a third `taskStarted` event, including one for
`phase-2`), `budgetExceeded` is emitted once per remaining sandbox (twice
here, not exactly once), and the final tally records three completed
tasks instead of two (unattempted tasks are indeed not marked failed —
the failed tally stays 0 — but nothing was left unattempted). -/
theorem budget_break_bug :
    countEvt (runOrchestration oSucc1 "u" dF "b" plan3 cfgB).1 "taskStarted" = 3 ∧
    countEvt (runOrchestration oSucc1 "u" dF "b" plan3 cfgB).1 "budgetExceeded" = 2 ∧
    (runOrchestration oSucc1 "u" dF "b" plan3 cfgB).1.events.contains
        ⟨"taskStarted", some "phase-2"⟩ = true ∧
    (runOrchestration oSucc1 "u" dF "b" plan3 cfgB).1.completedTasks.length = 3 ∧
    (runOrchestration oSucc1 "u" dF "b" plan3 cfgB).1.failedTasks.length = 0 := by
  norm_num [runOrchestration, tryBody, createBuildLoop, execTaskLoop, execPairs,
    teardownLoop, sendWebhook, assignTasks, assignCore, partitionTasks, phaseTask,
    countEvt, oSucc1, plan3, cfgB, dF, createSandboxStub, ph0, Config.budgetLimitUsd,
    Config.maxParallelSandboxes, List.enum, List.enumFrom, List.range,
    List.range.loop]
  decide

end Kriptik
